import Mathlib

/-!
Shallow embedding of `pubannotation.py` (PubAnnotation / Open Annotation
JSON-LD conversion library) together with proofs about its specification.

Python values parsed from JSON are modelled by the inductive `Json`
(dicts become ordered association lists, as produced by `json.loads`).
Python `assert` failures and builtin exceptions are modelled by the error
type `PyErr`, and every fallible operation returns `Except PyErr _`.
All definitions use structural recursion (fuel where needed) so that they
evaluate inside the kernel.
-/

/-- A parsed JSON value (Python's `None`/`bool`/`int`/`str`/`list`/`dict`).
Numbers are modelled as integers: every number occurring in PubAnnotation
documents (offsets, div ids) is integral. -/
inductive Json where
  | null : Json
  | bool (b : Bool) : Json
  | num (n : Int) : Json
  | str (s : String) : Json
  | arr (elems : List Json) : Json
  | obj (members : List (String × Json)) : Json

mutual
/-- Structural equality of `Json` values (Python `==` on parsed JSON). -/
def beqJ : Json → Json → Bool
  | .null, .null => true
  | .bool a, .bool b => a == b
  | .num a, .num b => a == b
  | .str a, .str b => a == b
  | .arr xs, .arr ys => beqL xs ys
  | .obj xs, .obj ys => beqK xs ys
  | _, _ => false

/-- Elementwise equality of JSON arrays. -/
def beqL : List Json → List Json → Bool
  | [], [] => true
  | x :: xs, y :: ys => beqJ x y && beqL xs ys
  | _, _ => false

/-- Pairwise equality of JSON object member lists. -/
def beqK : List (String × Json) → List (String × Json) → Bool
  | [], [] => true
  | (k, v) :: kvs, (k', v') :: kvs' => k == k' && beqJ v v' && beqK kvs kvs'
  | _, _ => false
end

/-- Errors raised by the Python code: each `assert` message in the source is
one constructor (the spec gives them names such as `DuplicateIdError`), and
builtin exceptions (`AttributeError`, `KeyError`, `TypeError`, `ValueError`)
get a constructor each. -/
inductive PyErr where
  /-- `assert a.id not in ann_by_id, 'duplicate id'` — `DuplicateIdError`.
  (The Python message interpolates the builtin `id`, not the duplicate key,
  so the error carries no payload.) -/
  | duplicateId : PyErr
  /-- `assert self.subj in ann_by_id, 'missing ID'` — `MissingReferenceError`. -/
  | missingReference (id : String) : PyErr
  /-- `assert isinstance(self.subj, Annotation), 'resolve_ids() first'` —
  `ResolutionRequiredError`. -/
  | resolutionRequired : PyErr
  /-- `assert isinstance(self.subj, six.string_types), 'multiple resolve?'`. -/
  | multipleResolve : PyErr
  /-- `assert m, 'failed to parse'` in `parse_base` — `MalformedBaseUriError`. -/
  | malformedBaseUri : PyErr
  /-- Python `AttributeError` (attribute access on a value lacking it). -/
  | attributeError : PyErr
  /-- Python `KeyError` from `d[k]` on a dict without key `k`. -/
  | keyError (k : String) : PyErr
  /-- Python `TypeError` (e.g. iterating a number, `%d` on a non-number). -/
  | typeError : PyErr
  /-- Python `ValueError` from `int()` on a non-numeric string. -/
  | valueError : PyErr
deriving DecidableEq, Repr

/-- First-match lookup in an association list with string keys
(models a Python dict built without key collisions). -/
def lookupJ (kvs : List (String × Json)) (k : String) : Option Json :=
  match kvs with
  | [] => none
  | (k', v) :: rest => if k' = k then some v else lookupJ rest k

/-- Python `d.get(k, dflt)`: `AttributeError` when `d` is not a dict. -/
def jGet (d : Json) (k : String) (dflt : Json) : Except PyErr Json :=
  match d with
  | .obj kvs => .ok ((lookupJ kvs k).getD dflt)
  | _ => .error .attributeError

/-- Python `d.get(k)` (default `None`). -/
def jGetN (d : Json) (k : String) : Except PyErr Json :=
  jGet d k Json.null

/-- Python `d[k]`: `KeyError` when missing, `TypeError` when `d` is not a
dict (string/list indices must be integers). -/
def jIndex (d : Json) (k : String) : Except PyErr Json :=
  match d with
  | .obj kvs =>
    match lookupJ kvs k with
    | some v => .ok v
    | none => .error (.keyError k)
  | _ => .error .typeError

/-- Python iteration `for x in v`: lists yield elements, dicts yield their
keys, strings yield one-character strings, scalars raise `TypeError`. -/
def asList (v : Json) : Except PyErr (List Json) :=
  match v with
  | .arr xs => .ok xs
  | .obj kvs => .ok (kvs.map (fun kv => Json.str kv.1))
  | .str s => .ok (s.data.map (fun c => Json.str (String.mk [c])))
  | _ => .error .typeError

/-- The test `doc[k] is None or doc[k] == []` used by `Annotations.to_json`
to drop a key from the output mapping. -/
def droppedVal : Json → Bool
  | .null => true
  | .arr [] => true
  | _ => false

mutual
/-- One annotation object: `Denotation` / `Relation` / `Modification`
(the three subclasses of the Python `Annotation` class).  Field values are
raw `Json`: the Python constructors store whatever `from_json` read from
the document. -/
inductive Ann where
  | den (id beginv endv obj : Json) : Ann
  | rel (id : Json) (subj : Ref) (pred : Json) (obj : Ref) : Ann
  | mod (id : Json) (pred : Json) (obj : Ref) : Ann

/-- A reference field of a `Relation`/`Modification`: the raw `Json` value
before `resolve_ids` (an ID string in well-formed input), or a direct link
to the referenced annotation object afterwards. -/
inductive Ref where
  | idRef (v : Json) : Ref
  | annRef (a : Ann) : Ref
end

/-- `self.id` of an annotation object. -/
def Ann.id : Ann → Json
  | .den i _ _ _ => i
  | .rel i _ _ _ => i
  | .mod i _ _ => i

/-- Attribute access `a.begin`: only `Denotation` has it; `AttributeError`
otherwise. -/
def Ann.beginAttr : Ann → Except PyErr Json
  | .den _ b _ _ => .ok b
  | _ => .error .attributeError

/-- Attribute access `a.end`: only `Denotation` has it. -/
def Ann.endAttr : Ann → Except PyErr Json
  | .den _ _ e _ => .ok e
  | _ => .error .attributeError

/-- `Relation.subj_id` / `Relation.obj_id` / `Modification.obj_id`: the raw
value when the field is an unresolved ID string, else `.id` of the linked
object.  A non-string unresolved value takes the `else` branch in Python
and `self.subj.id` raises `AttributeError`. -/
def refId : Ref → Except PyErr Json
  | .idRef (Json.str s) => .ok (Json.str s)
  | .idRef _ => .error .attributeError
  | .annRef a => .ok a.id

/-- `spans()`, dispatched over the three variants.  For `Relation` and
`Modification` the Python code asserts `isinstance(_, Annotation)`
(`ResolutionRequiredError` before resolution) and then reads
`.begin`/`.end` of the targets. -/
def Ann.spans : Ann → Except PyErr (List (Json × Json))
  | .den _ b e _ => .ok [(b, e)]
  | .rel _ subj _ obj =>
    match subj, obj with
    | .annRef sa, .annRef oa => do
      let sb ← sa.beginAttr
      let se ← sa.endAttr
      let ob ← oa.beginAttr
      let oe ← oa.endAttr
      return [(sb, se), (ob, oe)]
    | _, _ => .error .resolutionRequired
  | .mod _ _ obj =>
    match obj with
    | .annRef oa => do
      let ob ← oa.beginAttr
      let oe ← oa.endAttr
      return [(ob, oe)]
    | _ => .error .resolutionRequired

/-- Decimal digit character (`'0'`–`'9'`). -/
def digCh (d : Nat) : Char := Char.ofNat (48 + d)

/-- Fuelled decimal-digit expansion (structural recursion on fuel, so it
reduces in the kernel; `natDigits` supplies enough fuel). -/
def natDigitsF (fuel n : Nat) : List Char :=
  match fuel with
  | 0 => []
  | f + 1 => if n < 10 then [digCh n] else natDigitsF f (n / 10) ++ [digCh (n % 10)]

/-- Decimal digit list of a natural number (the digits `'%d'` prints). -/
def natDigits (n : Nat) : List Char := natDigitsF (n + 1) n

/-- Python `'%d' % n` for an `int`. -/
def pyFormatD (n : Int) : List Char :=
  if n < 0 then '-' :: natDigits (-n).toNat else natDigits n.toNat

/-- Python `'%d' % v` for a `Json` value: ints print in decimal, bools print
as `1`/`0` (Python bools are ints); anything else raises `TypeError`. -/
def pyD (v : Json) : Except PyErr (List Char) :=
  match v with
  | .num n => .ok (pyFormatD n)
  | .bool b => .ok (pyFormatD (if b then 1 else 0))
  | _ => .error .typeError

/-- The span token `'span:%d,%d' % (span[0], span[1])` built by the `wrap`
helper inside `Annotation.target`. -/
def wrapSpan (p : Json × Json) : Except PyErr String := do
  let b ← pyD p.1
  let e ← pyD p.2
  return String.mk ("span:".data ++ b ++ [','] ++ e)

/-- `Annotation.target()`: a single wrapped token when there is exactly one
span, else the list of wrapped tokens. -/
def Ann.target (a : Ann) : Except PyErr Json := do
  let sp ← a.spans
  match sp with
  | [s] => do
    let w ← wrapSpan s
    return Json.str w
  | _ => do
    let ws ← sp.mapM wrapSpan
    return Json.arr (ws.map Json.str)

/-- `to_json` of one annotation, the PubAnnotation-JSON shape of each
variant (`Denotation`: id/span/obj; `Relation`: id/subj/pred/obj;
`Modification`: id/pred/obj). -/
def Ann.to_json : Ann → Except PyErr Json
  | .den i b e o =>
    .ok (Json.obj [("id", i),
                   ("span", Json.obj [("begin", b), ("end", e)]),
                   ("obj", o)])
  | .rel i s p o => do
    let si ← refId s
    let oi ← refId o
    return Json.obj [("id", i), ("subj", si), ("pred", p), ("obj", oi)]
  | .mod i p o => do
    let oi ← refId o
    return Json.obj [("id", i), ("pred", p), ("obj", oi)]

/-- `to_jsonld` of one annotation (the Open Annotation `@graph` entry). -/
def Ann.to_jsonld (a : Ann) : Except PyErr Json :=
  match a with
  | .den i _ _ o => do
    let t ← a.target
    return Json.obj [("@id", i), ("@type", Json.str "pa:Denotation"),
                     ("hasTarget", t), ("label", o)]
  | .rel i s p o => do
    let t ← a.target
    let si ← refId s
    let oi ← refId o
    return Json.obj [("@id", i), ("@type", Json.str "pa:Relation"),
                     ("hasTarget", t),
                     ("hasBody", Json.obj [("pa:Subject", si),
                                           ("pa:Predicate", p),
                                           ("pa:Object", oi)])]
  | .mod i p o => do
    let t ← a.target
    let oi ← refId o
    return Json.obj [("@id", i), ("@type", Json.str "pa:Modification"),
                     ("hasTarget", t),
                     ("hasBody", Json.obj [("pa:Predicate", p),
                                           ("pa:Object", oi)])]

/-- `Denotation.from_json`. -/
def denFromJson (doc : Json) : Except PyErr Ann := do
  let span ← jGet doc "span" (Json.obj [])
  let i ← jGetN doc "id"
  let b ← jGetN span "begin"
  let e ← jGetN span "end"
  let o ← jGetN doc "obj"
  return Ann.den i b e o

/-- `Relation.from_json`. -/
def relFromJson (doc : Json) : Except PyErr Ann := do
  let i ← jGetN doc "id"
  let s ← jGetN doc "subj"
  let p ← jGetN doc "pred"
  let o ← jGetN doc "obj"
  return Ann.rel i (Ref.idRef s) p (Ref.idRef o)

/-- `Modification.from_json`. -/
def modFromJson (doc : Json) : Except PyErr Ann := do
  let i ← jGetN doc "id"
  let p ← jGetN doc "pred"
  let o ← jGetN doc "obj"
  return Ann.mod i p (Ref.idRef o)

/-- The document aggregate (`Annotations` in the source): text plus the
three ordered annotation collections and metadata.  Field values are raw
`Json` exactly as `from_json`/`from_jsonld` store them; `ids_resolved`
models the internal `_ids_resolved` flag. -/
structure AnnDoc where
  target : Json
  text : Json
  project : Json
  sourcedb : Json
  sourceid : Json
  divid : Json
  denotations : List Ann
  relations : List Ann
  modifications : List Ann
  namespaces : Json
  ids_resolved : Bool

/-- `Annotations.annotations()`: the chained collections in fixed order. -/
def AnnDoc.annotations (A : AnnDoc) : List Ann :=
  A.denotations ++ A.relations ++ A.modifications

/-- Membership test with Python-dict equality on `Json` keys. -/
def lookupJA (m : List (Json × Ann)) (k : Json) : Option Ann :=
  match m with
  | [] => none
  | (k', a) :: rest => if beqJ k' k then some a else lookupJA rest k

/-- The loop body of `Annotations.get_ann_by_id`, with the map built so
far as accumulator (Python mutates a dict in insertion order). -/
def buildIdMap (anns : List Ann) (acc : List (Json × Ann)) :
    Except PyErr (List (Json × Ann)) :=
  match anns with
  | [] => .ok acc
  | a :: rest =>
    match lookupJA acc a.id with
    | some _ => .error .duplicateId
    | none => buildIdMap rest (acc ++ [(a.id, a)])

/-- `Annotations.get_ann_by_id`. -/
def AnnDoc.get_ann_by_id (A : AnnDoc) : Except PyErr (List (Json × Ann)) :=
  buildIdMap A.annotations []

/-- A reference field as the string `resolve_ids` asserts it to be
(`assert isinstance(_, six.string_types), 'multiple resolve?'`). -/
def refStr : Ref → Except PyErr String
  | .idRef (Json.str s) => .ok s
  | _ => .error .multipleResolve

/-- Map lookup during resolution
(`assert self.subj in ann_by_id, 'missing ID %s'`). -/
def resolveLookup (m : List (Json × Ann)) (s : String) : Except PyErr Ann :=
  match lookupJA m (Json.str s) with
  | some a => .ok a
  | none => .error (.missingReference s)

/-- `resolve_ids(ann_by_id)` of a single annotation.  Python rewrites the
reference fields in place; here the rewritten annotation is returned.  The
stored link is the referenced object as present in `ann_by_id` (for the
observations made by this development — `id`, `begin`, `end` — this agrees
with Python's in-place aliasing, which never changes those attributes). -/
def Ann.resolve_ids (m : List (Json × Ann)) : Ann → Except PyErr Ann
  | .den i b e o => .ok (.den i b e o)
  | .rel i s p o => do
    let ss ← refStr s
    let os ← refStr o
    let sa ← resolveLookup m ss
    let oa ← resolveLookup m os
    return .rel i (.annRef sa) p (.annRef oa)
  | .mod i p o => do
    let os ← refStr o
    let oa ← resolveLookup m os
    return .mod i p (.annRef oa)

/-- `Annotations.resolve_ids()` (the no-argument call used by the library):
a no-op when `_ids_resolved` is set, otherwise builds the ID map and
resolves every annotation in collection order.  Python mutates in place, so
a failure can leave earlier annotations rewritten; this pure model returns
the whole resolved document or the first error. -/
def AnnDoc.resolve_ids (A : AnnDoc) : Except PyErr AnnDoc :=
  if A.ids_resolved then .ok A
  else do
    let m ← A.get_ann_by_id
    let ds ← A.denotations.mapM (Ann.resolve_ids m)
    let rs ← A.relations.mapM (Ann.resolve_ids m)
    let ms ← A.modifications.mapM (Ann.resolve_ids m)
    return { A with denotations := ds, relations := rs, modifications := ms,
                    ids_resolved := true }

/-- Python `'%s' % v` for the `Json` values that can appear in the URI
fields: strings print verbatim, ints in decimal, `None`/bools by their
Python names.  The `repr` of lists/dicts is not modelled (no theorem below
applies `%s` to a container). -/
def pyStr : Json → String
  | .str s => s
  | .num n => String.mk (pyFormatD n)
  | .null => "None"
  | .bool true => "True"
  | .bool false => "False"
  | .arr _ => ""
  | .obj _ => ""

/-- `Annotations.base_url`: the `@base` URI
`http://pubannotation.org/projects/{project}/docs/sourcedb/{sourcedb}/sourceid/{sourceid}/`
followed by `divs/{divid}/` when `divid is not None`. -/
def AnnDoc.base_url (A : AnnDoc) : String :=
  let base := "http://pubannotation.org/projects/" ++ pyStr A.project ++
    "/docs/sourcedb/" ++ pyStr A.sourcedb ++ "/sourceid/" ++ pyStr A.sourceid ++ "/"
  match A.divid with
  | .null => base
  | d => base ++ "divs/" ++ pyStr d ++ "/"

/-- Strip a literal character sequence from the front (one regex literal). -/
def dropPre (lit s : List Char) : Option (List Char) :=
  match lit, s with
  | [], rest => some rest
  | _ :: _, [] => none
  | c :: cs, d :: ds => if c = d then dropPre cs ds else none

/-- All ways a lazy `(.*?)` group can split the input, shortest prefix
first; `.` does not match a newline, so candidates stop at `'\n'`. -/
def dotSplits : List Char → List (List Char × List Char)
  | [] => [([], [])]
  | c :: cs =>
    ([], c :: cs) ::
      (if c = '\n' then []
       else (dotSplits cs).map (fun pr => (c :: pr.1, pr.2)))

/-- Python's `$` anchor: end of string, or just before one final newline. -/
def atEnd (s : List Char) : Bool :=
  match s with
  | [] => true
  | ['\n'] => true
  | _ => false

/-- Continuation of the `(.*?)` group inside `divs/(.*?)/`: after the
group, the literal `/` and then the end anchor must follow. -/
def divsGroupK (pr : List Char × List Char) : Option (List Char) :=
  match pr.2 with
  | '/' :: r => if atEnd r then some pr.1 else none
  | _ => none

/-- The optional tail `(?:divs/(.*?)/)?$` of the `@base` pattern: the
group is preferred over matching empty (a `(?:...)?` is greedy). -/
def divsTail (rest : List Char) : Option (Option (List Char)) :=
  match (match dropPre "divs/".data rest with
         | some s4 => (dotSplits s4).findSome? divsGroupK
         | none => none : Option (List Char)) with
  | some dv => some (some dv)
  | none => if atEnd rest then some none else none

/-- The tail `/(?:divs/(.*?)/)?$` that must follow the `sourceid` group. -/
def tailSlash (s : List Char) : Option (Option (List Char)) :=
  match s with
  | '/' :: rest => divsTail rest
  | _ => none

/-- `Annotations.parse_base`: backtracking match of
`^http://pubannotation.org/projects/(.*?)/docs/sourcedb/(.*?)/sourceid/(.*?)/(?:divs/(.*?)/)?$`
returning `m.groups()` (`None` fourth component when the optional group
did not participate), or `None` when the pattern fails (the source then
raises its assertion, `MalformedBaseUriError`). -/
def parse_base (base : String) :
    Option (String × String × String × Option String) :=
  match dropPre "http://pubannotation.org/projects/".data base.data with
  | none => none
  | some s1 =>
    (dotSplits s1).findSome? fun pr1 =>
      match dropPre "/docs/sourcedb/".data pr1.2 with
      | none => none
      | some s2 =>
        (dotSplits s2).findSome? fun pr2 =>
          match dropPre "/sourceid/".data pr2.2 with
          | none => none
          | some s3 =>
            (dotSplits s3).findSome? fun pr3 =>
              match tailSlash pr3.2 with
              | some dv =>
                some (String.mk pr1.1, String.mk pr2.1, String.mk pr3.1,
                      dv.map String.mk)
              | none => none

/-- Decimal digit test (`\d` of the regexes used by the source). -/
def isDig (c : Char) : Bool := '0' ≤ c && c ≤ '9'

/-- Numeric value of a digit character. -/
def digVal (c : Char) : Nat := c.toNat - 48

/-- Maximal digit run at the front (a greedy `(\d+)` before a non-digit). -/
def takeDigs : List Char → List Char × List Char
  | [] => ([], [])
  | c :: cs =>
    if isDig c then
      let pr := takeDigs cs
      (c :: pr.1, pr.2)
    else ([], c :: cs)

/-- Value of a digit list, most significant first. -/
def digsToNat (ds : List Char) : Nat :=
  ds.foldl (fun acc c => acc * 10 + digVal c) 0

/-- `re.match(r'span:(\d+),(\d+)', target)` followed by `int()` on the two
groups, as `Denotation.from_jsonld` does (`re.match` anchors only at the
start: trailing text is ignored; a failed match makes `m.groups()` raise
`AttributeError` on `None`). -/
def parseSpan (s : String) : Option (Nat × Nat) :=
  match dropPre "span:".data s.data with
  | none => none
  | some r1 =>
    let pr1 := takeDigs r1
    if pr1.1 = [] then none
    else
      match pr1.2 with
      | ',' :: r2 =>
        let pr2 := takeDigs r2
        if pr2.1 = [] then none
        else some (digsToNat pr1.1, digsToNat pr2.1)
      | _ => none

/-- Python `int()` on a string: an optional minus sign followed by digits.
(The builtin also tolerates a leading `+`, surrounding whitespace and
underscores; no theorem below relies on those inputs.) -/
def pyInt (s : String) : Except PyErr Int :=
  match s.data with
  | '-' :: ds =>
    if ds ≠ [] ∧ ds.all isDig then .ok (-(digsToNat ds : Int))
    else .error .valueError
  | ds =>
    if ds ≠ [] ∧ ds.all isDig then .ok (digsToNat ds : Int)
    else .error .valueError

/-- `Denotation.from_jsonld`. -/
def denFromJsonld (doc : Json) : Except PyErr Ann := do
  let tgt ← jIndex doc "hasTarget"
  let ts ← (match tgt with
            | .str s => .ok s
            | _ => .error .typeError : Except PyErr String)
  let be ← (match parseSpan ts with
            | some p => .ok p
            | none => .error .attributeError : Except PyErr (Nat × Nat))
  let i ← jGetN doc "@id"
  let o ← jGetN doc "label"
  return Ann.den i (Json.num be.1) (Json.num be.2) o

/-- `Relation.from_jsonld`. -/
def relFromJsonld (doc : Json) : Except PyErr Ann := do
  let body ← jGetN doc "hasBody"
  let i ← jGetN doc "@id"
  let s ← jGetN body "pa:Subject"
  let p ← jGetN body "pa:Predicate"
  let o ← jGetN body "pa:Object"
  return Ann.rel i (Ref.idRef s) p (Ref.idRef o)

/-- `Modification.from_jsonld`. -/
def modFromJsonld (doc : Json) : Except PyErr Ann := do
  let body ← jGetN doc "hasBody"
  let i ← jGetN doc "@id"
  let p ← jGetN body "pa:Predicate"
  let o ← jGetN body "pa:Object"
  return Ann.mod i p (Ref.idRef o)

/-- `Annotations.to_json`: the ten candidate keys in source order, with
`None`-valued and `[]`-valued entries deleted. -/
def AnnDoc.to_json (A : AnnDoc) : Except PyErr Json := do
  let ds ← A.denotations.mapM Ann.to_json
  let rs ← A.relations.mapM Ann.to_json
  let ms ← A.modifications.mapM Ann.to_json
  let kvs := [("target", A.target), ("text", A.text),
              ("sourcedb", A.sourcedb), ("sourceid", A.sourceid),
              ("divid", A.divid), ("project", A.project),
              ("namespaces", A.namespaces),
              ("denotations", Json.arr ds), ("relations", Json.arr rs),
              ("modifications", Json.arr ms)]
  return Json.obj (kvs.filter (fun kv => !droppedVal kv.2))

/-- `Annotations.to_jsonld`: resolves IDs first (Python mutates the
receiver; this pure model resolves into a local copy), then emits the
`@context` (with the `@base` URI and the text) and the `@graph` array in
collection order. -/
def AnnDoc.to_jsonld (A : AnnDoc) : Except PyErr Json := do
  let A' ← A.resolve_ids
  let g ← A'.annotations.mapM Ann.to_jsonld
  return Json.obj [("@context", Json.obj [("@base", Json.str A'.base_url),
                                          ("text", A'.text)]),
                   ("@graph", Json.arr g)]

/-- `Annotations.from_json`. -/
def AnnDoc.from_json (doc : Json) : Except PyErr AnnDoc := do
  let dv ← jGet doc "denotations" (Json.arr [])
  let rv ← jGet doc "relations" (Json.arr [])
  let mv ← jGet doc "modifications" (Json.arr [])
  let dl ← asList dv
  let rl ← asList rv
  let ml ← asList mv
  let ds ← dl.mapM denFromJson
  let rs ← rl.mapM relFromJson
  let ms ← ml.mapM modFromJson
  let tg ← jGetN doc "target"
  let tx ← jGetN doc "text"
  let pj ← jGetN doc "project"
  let sd ← jGetN doc "sourcedb"
  let si ← jGetN doc "sourceid"
  let dd ← jGetN doc "divid"
  let ns ← jGet doc "namespaces" (Json.arr [])
  return { target := tg, text := tx, project := pj, sourcedb := sd,
           sourceid := si, divid := dd, denotations := ds, relations := rs,
           modifications := ms, namespaces := ns, ids_resolved := false }

/-- The native `target` URI rebuilt by `Annotations.from_jsonld` (a one-way
template distinct from the `@base` one: no trailing slash after the div). -/
def target_uri (sourcedb sourceid : String) (divid : Option String) : String :=
  let t := "http://pubannotation.org/docs/sourcedb/" ++ sourcedb ++
    "/sourceid/" ++ sourceid ++ "/"
  match divid with
  | some dv => t ++ "divs/" ++ dv
  | none => t

/-- One list comprehension `[d for d in graph if d['@type'] == ty]`. -/
def filterByType (ty : String) : List Json → Except PyErr (List Json)
  | [] => .ok []
  | d :: rest => do
    let t ← jIndex d "@type"
    let tail ← filterByType ty rest
    return if beqJ t (Json.str ty) then d :: tail else tail

/-- `Annotations.from_jsonld`: parse `@base`, rebuild `target`, convert the
div id with `int()`, partition `@graph` by `@type` and convert each entry;
`namespaces` is always left empty on this path. -/
def AnnDoc.from_jsonld (doc : Json) : Except PyErr AnnDoc := do
  let context ← jIndex doc "@context"
  let graph ← jIndex doc "@graph"
  let base ← jIndex context "@base"
  let bs ← (match base with
            | .str s => .ok s
            | _ => .error .typeError : Except PyErr String)
  let gr ← (match parse_base bs with
            | some g => .ok g
            | none => .error .malformedBaseUri :
              Except PyErr (String × String × String × Option String))
  let (project, sourcedb, sourceid, dividS) := gr
  let divid ← (match dividS with
               | some dv => do
                 let n ← pyInt dv
                 return Json.num n
               | none => .ok Json.null : Except PyErr Json)
  let gl ← asList graph
  let dl ← filterByType "pa:Denotation" gl
  let rl ← filterByType "pa:Relation" gl
  let ml ← filterByType "pa:Modification" gl
  let ds ← dl.mapM denFromJsonld
  let rs ← rl.mapM relFromJsonld
  let ms ← ml.mapM modFromJsonld
  let tx ← jIndex context "text"
  return { target := Json.str (target_uri sourcedb sourceid dividS),
           text := tx, project := Json.str project,
           sourcedb := Json.str sourcedb, sourceid := Json.str sourceid,
           divid := divid, denotations := ds, relations := rs,
           modifications := ms, namespaces := Json.arr [],
           ids_resolved := false }

/-- Key order of the canonical rendering (`json.dumps(..., sort_keys=True)`
compares keys as strings). -/
def kvLe (p q : String × Json) : Prop := p.1 ≤ q.1

instance : DecidableRel kvLe := fun p q =>
  decidable_of_iff (p.1.toList ≤ q.1.toList) String.le_iff_toList_le.symm

instance : IsTotal (String × Json) kvLe := ⟨fun p q => le_total p.1 q.1⟩

instance : IsTrans (String × Json) kvLe := ⟨fun _ _ _ h h' => le_trans h h'⟩

/-- Object members in sorted key order. -/
def sortKvs (kvs : List (String × Json)) : List (String × Json) :=
  List.insertionSort kvLe kvs

mutual
/-- Canonical form of a JSON value: object keys sorted recursively.  Two
values print identically under `json.dumps(..., sort_keys=True)` iff their
canonical forms are equal. -/
def canon : Json → Json
  | .null => .null
  | .bool b => .bool b
  | .num n => .num n
  | .str s => .str s
  | .arr xs => .arr (canonL xs)
  | .obj kvs => .obj (sortKvs (canonK kvs))

/-- `canon` mapped over an array. -/
def canonL : List Json → List Json
  | [] => []
  | x :: xs => canon x :: canonL xs

/-- `canon` mapped over object member values. -/
def canonK : List (String × Json) → List (String × Json)
  | [] => []
  | (k, v) :: kvs => (k, canon v) :: canonK kvs
end

/-- Canonical form of a whole native document: since `to_json` deletes
`None`-valued and empty-array keys at the top level, canonical document
equality also drops such keys at the top level before sorting. -/
def canonDoc (j : Json) : Json :=
  match j with
  | .obj kvs => canon (Json.obj (kvs.filter (fun kv => !droppedVal kv.2)))
  | v => canon v

/-- Key present in an object member list. -/
def keyMemB (kvs : List (String × Json)) (k : String) : Bool :=
  (lookupJ kvs k).isSome

/-- No key occurs twice (a genuine Python dict). -/
def nodupKeysB : List (String × Json) → Bool
  | [] => true
  | (k, _) :: rest => !keyMemB rest k && nodupKeysB rest

/-- Every key of the object is in `ks`. -/
def keysAmong (kvs : List (String × Json)) (ks : List String) : Bool :=
  kvs.all (fun kv => ks.contains kv.1)

/-- The object has exactly the (distinct) keys `ks`, in any order. -/
def keysExact (kvs : List (String × Json)) (ks : List String) : Bool :=
  nodupKeysB kvs && kvs.length == ks.length && ks.all (fun k => keyMemB kvs k)

/-- Test for a JSON string. -/
def isStrJ : Json → Bool
  | .str _ => true
  | _ => false

/-- A well-formed native denotation object: exactly the keys
`id`/`span`/`obj` with `span` an object of exactly `begin`/`end`
(values unconstrained — they round-trip verbatim). -/
def validDeno (el : Json) : Bool :=
  match el with
  | .obj d =>
    keysExact d ["id", "span", "obj"] &&
    (match lookupJ d "span" with
     | some (.obj s) => keysExact s ["begin", "end"]
     | _ => false)
  | _ => false

/-- A well-formed native relation object: exactly `id`/`subj`/`pred`/`obj`
with string-valued `subj` and `obj` (as `Relation.to_json` requires). -/
def validRel (el : Json) : Bool :=
  match el with
  | .obj d =>
    keysExact d ["id", "subj", "pred", "obj"] &&
    (match lookupJ d "subj", lookupJ d "obj" with
     | some sv, some ov => isStrJ sv && isStrJ ov
     | _, _ => false)
  | _ => false

/-- A well-formed native modification object: exactly `id`/`pred`/`obj`
with a string-valued `obj`. -/
def validMod (el : Json) : Bool :=
  match el with
  | .obj d =>
    keysExact d ["id", "pred", "obj"] &&
    (match lookupJ d "obj" with
     | some ov => isStrJ ov
     | _ => false)
  | _ => false

/-- An annotation collection, when present, is an array of well-formed
entries. -/
def collOk (kvs : List (String × Json)) (k : String) (p : Json → Bool) : Bool :=
  match lookupJ kvs k with
  | none => true
  | some (.arr els) => els.all p
  | some _ => false

/-- The ten keys `Annotations.to_json` can emit. -/
def tenKeys : List String :=
  ["target", "text", "sourcedb", "sourceid", "divid", "project",
   "namespaces", "denotations", "relations", "modifications"]

/-- A valid native-JSON document: a dict without duplicate or unknown keys
whose three annotation collections, when present, are arrays of well-formed
entries.  Scalar metadata values are unconstrained (they round-trip
verbatim, and `None`/`[]` values are dropped on both sides of the
canonical comparison). -/
def validNative (D : Json) : Bool :=
  match D with
  | .obj kvs =>
    nodupKeysB kvs && keysAmong kvs tenKeys &&
    collOk kvs "denotations" validDeno &&
    collOk kvs "relations" validRel &&
    collOk kvs "modifications" validMod
  | _ => false

/-- String free of `/` and newline: safe inside the lazily matched groups
of the `@base` pattern. -/
def noSlashNl (s : String) : Bool :=
  s.data.all (fun c => c ≠ '/' && c ≠ '\n')

/-- Membership by Python equality in a list of JSON values. -/
def memJ (l : List Json) (v : Json) : Bool :=
  l.any (fun x => beqJ x v)

/-- No duplicates (by Python equality) in a list of JSON values. -/
def nodupJB : List Json → Bool
  | [] => true
  | x :: xs => !memJ xs x && nodupJB xs

/-- The `id` value of a native annotation object. -/
def elId (el : Json) : Json :=
  match el with
  | .obj d => (lookupJ d "id").getD .null
  | _ => .null

/-- A named field of a native annotation object. -/
def refField (el : Json) (k : String) : Json :=
  match el with
  | .obj d => (lookupJ d k).getD .null
  | _ => .null

/-- The elements of a collection key (empty when absent). -/
def getColl (kvs : List (String × Json)) (k : String) : List Json :=
  match lookupJ kvs k with
  | some (.arr els) => els
  | _ => []

/-- Denotation offsets suitable for JSON-LD: `begin`/`end` are non-negative
integers (the `span:%d,%d` token must re-parse under `(\d+)`). -/
def denBeginsOk (el : Json) : Bool :=
  match el with
  | .obj d =>
    match lookupJ d "span" with
    | some (.obj s) =>
      (match lookupJ s "begin", lookupJ s "end" with
       | some (.num b), some (.num e) => decide (0 ≤ b) && decide (0 ≤ e)
       | _, _ => false)
    | _ => false
  | _ => false

/-- A native document that survives the JSON-LD round trip: valid, with
resolvable references that all point at denotations, integral non-negative
offsets, string metadata that the `@base` grammar can carry, a `target`
equal to the URI `from_jsonld` rebuilds, an integral (or absent) `divid`,
and no namespaces (the JSON-LD shape cannot carry them). -/
def validForLD (D : Json) : Bool :=
  validNative D &&
  match D with
  | .obj kvs =>
    let dens := getColl kvs "denotations"
    let rels := getColl kvs "relations"
    let mods := getColl kvs "modifications"
    let denIds := dens.map elId
    let allIds := denIds ++ rels.map elId ++ mods.map elId
    (match lookupJ kvs "project", lookupJ kvs "sourcedb",
           lookupJ kvs "sourceid" with
     | some (.str pj), some (.str sd), some (.str si) =>
       noSlashNl pj && noSlashNl sd && noSlashNl si &&
       (match (lookupJ kvs "divid").getD .null with
        | .null =>
          (match lookupJ kvs "target" with
           | some tv => beqJ tv (.str (target_uri sd si none))
           | none => false)
        | .num n =>
          (match lookupJ kvs "target" with
           | some tv =>
             beqJ tv (.str (target_uri sd si (some (String.mk (pyFormatD n)))))
           | none => false)
        | _ => false)
     | _, _, _ => false) &&
    (match lookupJ kvs "namespaces" with
     | none => true
     | some (.arr []) => true
     | some _ => false) &&
    nodupJB allIds &&
    dens.all denBeginsOk &&
    rels.all (fun el => memJ denIds (refField el "subj") &&
                        memJ denIds (refField el "obj")) &&
    mods.all (fun el => memJ denIds (refField el "obj"))
  | _ => false

/-- Unresolved reference field holding a string, as `from_json` produces. -/
def refIsStr : Ref → Bool
  | .idRef (.str _) => true
  | _ => false

/-- All reference fields of an annotation are unresolved ID strings. -/
def annRefsStr : Ann → Bool
  | .den _ _ _ _ => true
  | .rel _ s _ o => refIsStr s && refIsStr o
  | .mod _ _ o => refIsStr o

/-- Example denotation `T1 = [0,1):"X"` in native JSON. -/
def exDen1 : Json :=
  .obj [("id", .str "T1"),
        ("span", .obj [("begin", .num 0), ("end", .num 1)]),
        ("obj", .str "X")]

/-- Example denotation `T2 = [2,3):"Y"` in native JSON. -/
def exDen2 : Json :=
  .obj [("id", .str "T2"),
        ("span", .obj [("begin", .num 2), ("end", .num 3)]),
        ("obj", .str "Y")]

/-- Example relation `R1: T1 -P-> T2` in native JSON. -/
def exRel : Json :=
  .obj [("id", .str "R1"), ("subj", .str "T1"), ("pred", .str "P"),
        ("obj", .str "T2")]

/-- Example modification `M1: Neg(T1)` in native JSON. -/
def exMod : Json :=
  .obj [("id", .str "M1"), ("pred", .str "Neg"), ("obj", .str "T1")]

/-- A complete valid native document exercising all three collections. -/
def exDoc : Json :=
  .obj [("target", .str "http://pubannotation.org/docs/sourcedb/d/sourceid/1/"),
        ("text", .str "AB"),
        ("project", .str "p"), ("sourcedb", .str "d"), ("sourceid", .str "1"),
        ("denotations", .arr [exDen1, exDen2]),
        ("relations", .arr [exRel]),
        ("modifications", .arr [exMod])]

/-- Document model with two annotations sharing the id `T1`. -/
def dupDoc : AnnDoc :=
  { target := .null, text := .str "AB", project := .null, sourcedb := .null,
    sourceid := .null, divid := .null,
    denotations := [.den (.str "T1") (.num 0) (.num 1) (.str "X"),
                    .den (.str "T1") (.num 1) (.num 2) (.str "Y")],
    relations := [], modifications := [], namespaces := .arr [],
    ids_resolved := false }

/-- Document model with distinct ids: one denotation, one relation and one
modification both referring to `T1`. -/
def okDoc : AnnDoc :=
  { target := .null, text := .str "AB", project := .null, sourcedb := .null,
    sourceid := .null, divid := .null,
    denotations := [.den (.str "T1") (.num 0) (.num 1) (.str "X")],
    relations := [.rel (.str "R1") (.idRef (.str "T1")) (.str "P")
                    (.idRef (.str "T1"))],
    modifications := [.mod (.str "M1") (.str "Neg") (.idRef (.str "T1"))],
    namespaces := .arr [], ids_resolved := false }

/-- `okDoc` after `resolve_ids`. -/
def okDocRes : AnnDoc :=
  { target := .null, text := .str "AB", project := .null, sourcedb := .null,
    sourceid := .null, divid := .null,
    denotations := [.den (.str "T1") (.num 0) (.num 1) (.str "X")],
    relations := [.rel (.str "R1")
                    (.annRef (.den (.str "T1") (.num 0) (.num 1) (.str "X")))
                    (.str "P")
                    (.annRef (.den (.str "T1") (.num 0) (.num 1) (.str "X")))],
    modifications := [.mod (.str "M1") (.str "Neg")
                    (.annRef (.den (.str "T1") (.num 0) (.num 1) (.str "X")))],
    namespaces := .arr [], ids_resolved := true }

/-- Document model whose relation references the absent id `T9`. -/
def missDoc : AnnDoc :=
  { target := .null, text := .str "AB", project := .null, sourcedb := .null,
    sourceid := .null, divid := .null,
    denotations := [.den (.str "T1") (.num 0) (.num 1) (.str "X")],
    relations := [.rel (.str "R1") (.idRef (.str "T9")) (.str "P")
                    (.idRef (.str "T1"))],
    modifications := [], namespaces := .arr [], ids_resolved := false }

/-- Document model where relation `R1` references relation `R2`:
resolution succeeds, but `R1.spans()` then hits `AttributeError`. -/
def relRelDoc : AnnDoc :=
  { target := .null, text := .str "AB", project := .null, sourcedb := .null,
    sourceid := .null, divid := .null,
    denotations := [.den (.str "T1") (.num 0) (.num 1) (.str "X")],
    relations := [.rel (.str "R1") (.idRef (.str "R2")) (.str "P")
                    (.idRef (.str "T1")),
                  .rel (.str "R2") (.idRef (.str "T1")) (.str "Q")
                    (.idRef (.str "T1"))],
    modifications := [], namespaces := .arr [], ids_resolved := false }

/-- A JSON-LD document whose single `@graph` entry has the unrecognized
`@type` `pa:Other`. -/
def unkDoc : Json :=
  .obj [("@context",
         .obj [("@base",
                .str "http://pubannotation.org/projects/p/docs/sourcedb/d/sourceid/1/"),
               ("text", .str "t")]),
        ("@graph", .arr [.obj [("@id", .str "X1"), ("@type", .str "pa:Other")]])]

/-- What `from_jsonld` makes of `unkDoc`: the entry is dropped everywhere. -/
def unkDocRes : AnnDoc :=
  { target := .str "http://pubannotation.org/docs/sourcedb/d/sourceid/1/",
    text := .str "t", project := .str "p", sourcedb := .str "d",
    sourceid := .str "1", divid := .null,
    denotations := [], relations := [], modifications := [],
    namespaces := .arr [], ids_resolved := false }

/-- Document model with URI components and no div, for the base-URI claim. -/
def uriDocA : AnnDoc :=
  { target := .null, text := .null, project := .str "proj",
    sourcedb := .str "PMC", sourceid := .str "12345", divid := .null,
    denotations := [], relations := [], modifications := [],
    namespaces := .arr [], ids_resolved := false }

/-- Document model with URI components and a div id. -/
def uriDocB : AnnDoc :=
  { target := .null, text := .null, project := .str "proj",
    sourcedb := .str "PMC", sourceid := .str "12345", divid := .str "7",
    denotations := [], relations := [], modifications := [],
    namespaces := .arr [], ids_resolved := false }

/-- The `span` value `Denotation.from_json` reads (default `{}`). -/
def spanOf (el : Json) : Json :=
  match el with
  | .obj d => (lookupJ d "span").getD (.obj [])
  | _ => .obj []

/-- The `Denotation` parsed from a native element (what `from_json` builds
when it succeeds). -/
def denOfEl (el : Json) : Ann :=
  .den (refField el "id") (refField (spanOf el) "begin")
    (refField (spanOf el) "end") (refField el "obj")

/-- The `Relation` parsed from a native element. -/
def relOfEl (el : Json) : Ann :=
  .rel (refField el "id") (.idRef (refField el "subj"))
    (refField el "pred") (.idRef (refField el "obj"))

/-- The `Modification` parsed from a native element. -/
def modOfEl (el : Json) : Ann :=
  .mod (refField el "id") (refField el "pred") (.idRef (refField el "obj"))

/-- `to_json` of the parsed denotation. -/
def denOutEl (el : Json) : Json :=
  .obj [("id", refField el "id"),
        ("span", .obj [("begin", refField (spanOf el) "begin"),
                       ("end", refField (spanOf el) "end")]),
        ("obj", refField el "obj")]

/-- `to_json` of the parsed relation. -/
def relOutEl (el : Json) : Json :=
  .obj [("id", refField el "id"), ("subj", refField el "subj"),
        ("pred", refField el "pred"), ("obj", refField el "obj")]

/-- `to_json` of the parsed modification. -/
def modOutEl (el : Json) : Json :=
  .obj [("id", refField el "id"), ("pred", refField el "pred"),
        ("obj", refField el "obj")]

/-- The document model `from_json` builds from a valid native object. -/
def docOf (kvs : List (String × Json)) : AnnDoc :=
  { target := (lookupJ kvs "target").getD .null,
    text := (lookupJ kvs "text").getD .null,
    project := (lookupJ kvs "project").getD .null,
    sourcedb := (lookupJ kvs "sourcedb").getD .null,
    sourceid := (lookupJ kvs "sourceid").getD .null,
    divid := (lookupJ kvs "divid").getD .null,
    denotations := (getColl kvs "denotations").map denOfEl,
    relations := (getColl kvs "relations").map relOfEl,
    modifications := (getColl kvs "modifications").map modOfEl,
    namespaces := (lookupJ kvs "namespaces").getD (.arr []),
    ids_resolved := false }

/-- The ten candidate output entries `to_json` builds for `docOf kvs`
(before the `None`/`[]` deletion pass). -/
def out0 (kvs : List (String × Json)) : List (String × Json) :=
  [("target", (lookupJ kvs "target").getD .null),
   ("text", (lookupJ kvs "text").getD .null),
   ("sourcedb", (lookupJ kvs "sourcedb").getD .null),
   ("sourceid", (lookupJ kvs "sourceid").getD .null),
   ("divid", (lookupJ kvs "divid").getD .null),
   ("project", (lookupJ kvs "project").getD .null),
   ("namespaces", (lookupJ kvs "namespaces").getD (.arr [])),
   ("denotations", .arr ((getColl kvs "denotations").map denOutEl)),
   ("relations", .arr ((getColl kvs "relations").map relOutEl)),
   ("modifications", .arr ((getColl kvs "modifications").map modOutEl))]

/-- The ID map `get_ann_by_id` builds for `okDoc`. -/
def okMap : List (Json × Ann) :=
  [(.str "T1", .den (.str "T1") (.num 0) (.num 1) (.str "X")),
   (.str "R1", .rel (.str "R1") (.idRef (.str "T1")) (.str "P")
      (.idRef (.str "T1"))),
   (.str "M1", .mod (.str "M1") (.str "Neg") (.idRef (.str "T1")))]

/-- One annotation's JSON-LD round trip: the resolved annotation `r2` emits
a JSON-LD node of type `ty` which the matching `from_jsonld` constructor
reads back as the unresolved annotation `r`. -/
def ldRT (fj : Json → Except PyErr Ann) (ty : String) (r r2 : Ann) : Prop :=
  ∃ ld, r2.to_jsonld = .ok ld ∧ jIndex ld "@type" = .ok (.str ty) ∧
    fj ld = .ok r

/-- C2 counterexample document: a valid native document whose single
relation reference is resolvable (`T1` names the denotation), but whose
`target` is not the URI `from_jsonld` rebuilds from the `@base`
components. -/
def c2Doc : Json :=
  .obj [("target", .str "foo"), ("text", .str "AB"),
        ("project", .str "p"), ("sourcedb", .str "d"),
        ("sourceid", .str "1"),
        ("denotations", .arr [exDen1]),
        ("relations", .arr [.obj [("id", .str "R1"), ("subj", .str "T1"),
                                  ("pred", .str "P"), ("obj", .str "T1")]])]

/-- The document model `from_json` builds from `c2Doc`. -/
def c2A : AnnDoc :=
  { target := .str "foo", text := .str "AB", project := .str "p",
    sourcedb := .str "d", sourceid := .str "1", divid := .null,
    denotations := [.den (.str "T1") (.num 0) (.num 1) (.str "X")],
    relations := [.rel (.str "R1") (.idRef (.str "T1")) (.str "P")
                    (.idRef (.str "T1"))],
    modifications := [], namespaces := .arr [], ids_resolved := false }

/-- `c2A` after resolution: the relation references are object links, so
the document is resolvable in the claim sense. -/
def c2ARes : AnnDoc :=
  { c2A with
    relations := [.rel (.str "R1")
        (.annRef (.den (.str "T1") (.num 0) (.num 1) (.str "X"))) (.str "P")
        (.annRef (.den (.str "T1") (.num 0) (.num 1) (.str "X")))],
    ids_resolved := true }

/-- The JSON-LD emission of `c2A`. -/
def c2Ld : Json :=
  .obj [("@context", .obj
          [("@base",
            .str "http://pubannotation.org/projects/p/docs/sourcedb/d/sourceid/1/"),
           ("text", .str "AB")]),
        ("@graph", .arr
          [.obj [("@id", .str "T1"), ("@type", .str "pa:Denotation"),
                 ("hasTarget", .str "span:0,1"), ("label", .str "X")],
           .obj [("@id", .str "R1"), ("@type", .str "pa:Relation"),
                 ("hasTarget", .arr [.str "span:0,1", .str "span:0,1"]),
                 ("hasBody", .obj [("pa:Subject", .str "T1"),
                                   ("pa:Predicate", .str "P"),
                                   ("pa:Object", .str "T1")])]])]

/-- What `from_jsonld` makes of `c2Ld`: identical to `c2A` except that
the original `target` is gone, replaced by the rebuilt URI. -/
def c2A2 : AnnDoc :=
  { c2A with
    target := .str "http://pubannotation.org/docs/sourcedb/d/sourceid/1/" }

/-- `c2A.to_json`. -/
def c2Out : Json :=
  .obj [("target", .str "foo"), ("text", .str "AB"),
        ("sourcedb", .str "d"), ("sourceid", .str "1"),
        ("project", .str "p"),
        ("denotations", .arr [exDen1]),
        ("relations", .arr [.obj [("id", .str "R1"), ("subj", .str "T1"),
                                  ("pred", .str "P"), ("obj", .str "T1")]])]

/-- `c2A2.to_json`: differs from `c2A.to_json` exactly at `target`. -/
def c2Out2 : Json :=
  .obj [("target",
         .str "http://pubannotation.org/docs/sourcedb/d/sourceid/1/"),
        ("text", .str "AB"),
        ("sourcedb", .str "d"), ("sourceid", .str "1"),
        ("project", .str "p"),
        ("denotations", .arr [exDen1]),
        ("relations", .arr [.obj [("id", .str "R1"), ("subj", .str "T1"),
                                  ("pred", .str "P"), ("obj", .str "T1")]])]

theorem beq_iff_all : ∀ n : Nat,
    (∀ a b : Json, sizeOf a ≤ n → (beqJ a b = true ↔ a = b)) ∧
    (∀ xs ys : List Json, sizeOf xs ≤ n → (beqL xs ys = true ↔ xs = ys)) ∧
    (∀ kvs kvs' : List (String × Json), sizeOf kvs ≤ n →
        (beqK kvs kvs' = true ↔ kvs = kvs')) := by
  intro n
  induction n with
  | zero =>
    refine ⟨?_, ?_, ?_⟩ <;> intro a b h <;> exfalso <;> cases a <;> simp at h
  | succ n ih =>
    obtain ⟨ihJ, ihL, ihK⟩ := ih
    refine ⟨?_, ?_, ?_⟩
    · intro a b h
      cases a with
      | null => cases b <;> simp [beqJ]
      | bool x => cases b <;> simp [beqJ]
      | num x => cases b <;> simp [beqJ]
      | str x => cases b <;> simp [beqJ]
      | arr xs =>
        cases b <;> simp [beqJ]
        exact ihL xs _ (by simp at h; omega)
      | obj kvs =>
        cases b <;> simp [beqJ]
        exact ihK kvs _ (by simp at h; omega)
    · intro xs ys h
      cases xs with
      | nil => cases ys <;> simp [beqL]
      | cons x xs =>
        cases ys with
        | nil => simp [beqL]
        | cons y ys =>
          have h1 : sizeOf x ≤ n := by simp at h; omega
          have h2 : sizeOf xs ≤ n := by simp at h; omega
          simp [beqL, ihJ x y h1, ihL xs ys h2]
    · intro kvs kvs' h
      cases kvs with
      | nil => cases kvs' <;> simp [beqK]
      | cons kv kvs =>
        obtain ⟨k, v⟩ := kv
        cases kvs' with
        | nil => simp [beqK]
        | cons kv' kvs' =>
          obtain ⟨k', v'⟩ := kv'
          have h1 : sizeOf v ≤ n := by simp at h; omega
          have h2 : sizeOf kvs ≤ n := by simp at h; omega
          simp [beqK, ihJ v v' h1, ihK kvs kvs' h2]

/-- `beqJ` decides equality of `Json` values. -/
theorem beqJ_iff {a b : Json} : beqJ a b = true ↔ a = b :=
  (beq_iff_all (sizeOf a)).1 a b le_rfl

theorem memJ_iff {l : List Json} {v : Json} : memJ l v = true ↔ v ∈ l := by
  simp only [memJ, List.any_eq_true, beqJ_iff]
  constructor
  · rintro ⟨x, hx, rfl⟩
    exact hx
  · intro hv
    exact ⟨v, hv, rfl⟩

theorem memJ_false_iff {l : List Json} {v : Json} :
    memJ l v = false ↔ v ∉ l := by
  rw [← memJ_iff]
  cases memJ l v <;> simp

theorem nodupJB_iff {l : List Json} : nodupJB l = true ↔ l.Nodup := by
  induction l with
  | nil => simp [nodupJB]
  | cons x xs ih =>
    simp [nodupJB, Bool.not_eq_true', memJ_false_iff, ih]

theorem lookupJ_mem {kvs : List (String × Json)} {k : String} {v : Json}
    (h : lookupJ kvs k = some v) : (k, v) ∈ kvs := by
  induction kvs with
  | nil => simp [lookupJ] at h
  | cons kv rest ih =>
    obtain ⟨k', v'⟩ := kv
    by_cases hk : k' = k
    · subst hk
      simp [lookupJ] at h
      simp [h]
    · simp [lookupJ, hk] at h
      exact List.mem_cons_of_mem _ (ih h)

theorem lookupJ_none_iff {kvs : List (String × Json)} {k : String} :
    lookupJ kvs k = none ↔ k ∉ kvs.map Prod.fst := by
  induction kvs with
  | nil => simp [lookupJ]
  | cons kv rest ih =>
    obtain ⟨k', v'⟩ := kv
    by_cases hk : k' = k
    · subst hk
      simp [lookupJ]
    · simp [lookupJ, hk, ih, Ne.symm hk]

theorem keyMemB_iff {kvs : List (String × Json)} {k : String} :
    keyMemB kvs k = true ↔ k ∈ kvs.map Prod.fst := by
  unfold keyMemB
  rcases h : lookupJ kvs k with _ | v
  · simp [lookupJ_none_iff.mp h]
  · constructor
    · intro _
      exact List.mem_map.mpr ⟨(k, v), lookupJ_mem h, rfl⟩
    · intro _
      rfl

theorem keyMemB_false_iff {kvs : List (String × Json)} {k : String} :
    keyMemB kvs k = false ↔ k ∉ kvs.map Prod.fst := by
  rw [← keyMemB_iff]
  cases keyMemB kvs k <;> simp

theorem nodupKeysB_iff {kvs : List (String × Json)} :
    nodupKeysB kvs = true ↔ (kvs.map Prod.fst).Nodup := by
  induction kvs with
  | nil => simp [nodupKeysB]
  | cons kv rest ih =>
    obtain ⟨k, v⟩ := kv
    simp [nodupKeysB, Bool.not_eq_true', keyMemB_false_iff, ih]

theorem mem_lookupJ {kvs : List (String × Json)}
    (hnd : (kvs.map Prod.fst).Nodup) {k : String} {v : Json}
    (h : (k, v) ∈ kvs) : lookupJ kvs k = some v := by
  induction kvs with
  | nil => simp at h
  | cons kv rest ih =>
    obtain ⟨k', v'⟩ := kv
    rw [List.map_cons, List.nodup_cons] at hnd
    rcases List.mem_cons.mp h with h1 | h1
    · injection h1 with hk hv
      subst hk
      subst hv
      simp [lookupJ]
    · have hmem : k ∈ rest.map Prod.fst := List.mem_map.mpr ⟨(k, v), h1, rfl⟩
      have hne : k' ≠ k := fun he => hnd.1 (he ▸ hmem)
      simp [lookupJ, hne]
      exact ih hnd.2 h1

theorem sortKvs_perm (l : List (String × Json)) : List.Perm (sortKvs l) l :=
  List.perm_insertionSort kvLe l

theorem pairwise_lt_of_sorted_nodup {l : List (String × Json)}
    (hs : l.Sorted kvLe) (hnd : (l.map Prod.fst).Nodup) :
    l.Pairwise (fun p q => p.1 < q.1) := by
  have hne : l.Pairwise (fun p q : String × Json => p.1 ≠ q.1) :=
    List.pairwise_map.mp hnd
  exact (hs.and hne).imp (fun h => lt_of_le_of_ne h.1 h.2)

theorem sortKvs_eq_of_perm {l₁ l₂ : List (String × Json)} (hp : List.Perm l₁ l₂)
    (hnd : (l₁.map Prod.fst).Nodup) : sortKvs l₁ = sortKvs l₂ := by
  haveI hanti : IsAntisymm (String × Json) (fun p q => p.1 < q.1) :=
    ⟨fun _ _ h h' => ((lt_asymm h) h').elim⟩
  have hp₁ := sortKvs_perm l₁
  have hp₂ := sortKvs_perm l₂
  have hnd₂ : (l₂.map Prod.fst).Nodup := ((hp.map Prod.fst).nodup_iff).mp hnd
  have hnd₁' : ((sortKvs l₁).map Prod.fst).Nodup :=
    ((hp₁.map Prod.fst).nodup_iff).mpr hnd
  have hnd₂' : ((sortKvs l₂).map Prod.fst).Nodup :=
    ((hp₂.map Prod.fst).nodup_iff).mpr hnd₂
  exact @List.eq_of_perm_of_sorted _ (fun p q : String × Json => p.1 < q.1)
    hanti _ _
    (hp₁.trans (hp.trans hp₂.symm))
    (pairwise_lt_of_sorted_nodup (List.sorted_insertionSort kvLe l₁) hnd₁')
    (pairwise_lt_of_sorted_nodup (List.sorted_insertionSort kvLe l₂) hnd₂')

theorem perm_of_lookups {l pairs : List (String × Json)}
    (hk : List.Perm (l.map Prod.fst) (pairs.map Prod.fst))
    (hnd : (pairs.map Prod.fst).Nodup)
    (hlk : ∀ p ∈ pairs, lookupJ l p.1 = some p.2) : List.Perm l pairs := by
  have hndl : (l.map Prod.fst).Nodup := hk.nodup_iff.mpr hnd
  have hndl' : l.Nodup := List.Nodup.of_map _ hndl
  have hndp' : pairs.Nodup := List.Nodup.of_map _ hnd
  rw [List.perm_ext_iff_of_nodup hndl' hndp']
  intro p
  constructor
  · intro hp
    have hlp : lookupJ l p.1 = some p.2 := by
      obtain ⟨p1, p2⟩ := p
      exact mem_lookupJ hndl hp
    have hkey : p.1 ∈ pairs.map Prod.fst :=
      hk.mem_iff.mp (List.mem_map.mpr ⟨p, hp, rfl⟩)
    obtain ⟨q, hq, hq1⟩ := List.mem_map.mp hkey
    have hlq := hlk q hq
    rw [hq1, hlp] at hlq
    injection hlq with hv
    have : q = p := by
      obtain ⟨q1, q2⟩ := q
      obtain ⟨p1, p2⟩ := p
      simp at hq1 hv
      simp [hq1, hv]
    exact this ▸ hq
  · intro hp
    have := lookupJ_mem (hlk p hp)
    obtain ⟨p1, p2⟩ := p
    exact this

theorem keysExact_perm {kvs : List (String × Json)} {ks : List String}
    (hks : ks.Nodup) (h : keysExact kvs ks = true) :
    List.Perm (kvs.map Prod.fst) ks := by
  simp only [keysExact, Bool.and_eq_true, beq_iff_eq, List.all_eq_true] at h
  obtain ⟨⟨hnd, hlen⟩, hall⟩ := h
  have hsub : ks ⊆ kvs.map Prod.fst := fun k hk => keyMemB_iff.mp (hall k hk)
  have hsp : List.Subperm ks (kvs.map Prod.fst) := hks.subperm hsub
  have hlen' : (kvs.map Prod.fst).length ≤ ks.length := by
    simp [List.length_map, hlen]
  exact (hsp.perm_of_length_le hlen').symm

theorem keysExact_nodup {kvs : List (String × Json)} {ks : List String}
    (h : keysExact kvs ks = true) : (kvs.map Prod.fst).Nodup := by
  simp only [keysExact, Bool.and_eq_true] at h
  exact nodupKeysB_iff.mp h.1.1

theorem digsToNat_snoc (ds : List Char) (c : Char) :
    digsToNat (ds ++ [c]) = 10 * digsToNat ds + digVal c := by
  simp [digsToNat, List.foldl_append]
  omega

theorem isDig_digCh {d : Nat} (h : d < 10) : isDig (digCh d) = true := by
  interval_cases d <;> decide

theorem digVal_digCh {d : Nat} (h : d < 10) : digVal (digCh d) = d := by
  interval_cases d <;> decide

theorem isDig_excl {c : Char} (h : isDig c = true) :
    c ≠ '-' ∧ c ≠ '/' ∧ c ≠ '\n' ∧ c ≠ ',' := by
  refine ⟨?_, ?_, ?_, ?_⟩ <;> intro he <;> subst he <;> revert h <;> decide

theorem natDigitsF_spec : ∀ fuel n, n < fuel →
    natDigitsF fuel n ≠ [] ∧ (natDigitsF fuel n).all isDig = true ∧
    digsToNat (natDigitsF fuel n) = n := by
  intro fuel
  induction fuel with
  | zero => omega
  | succ f ih =>
    intro n hn
    by_cases h10 : n < 10
    · refine ⟨by simp [natDigitsF, h10], ?_, ?_⟩
      · simp [natDigitsF, h10, isDig_digCh h10]
      · simp [natDigitsF, h10, digsToNat, digVal_digCh h10]
    · have hd : n / 10 < n := Nat.div_lt_self (by omega) (by omega)
      obtain ⟨h1, h2, h3⟩ := ih (n / 10) (by omega)
      have hm : n % 10 < 10 := Nat.mod_lt _ (by omega)
      refine ⟨by simp [natDigitsF, h10], ?_, ?_⟩
      · simp [natDigitsF, h10, List.all_append, h2, isDig_digCh hm]
      · rw [show natDigitsF (f + 1) n =
              natDigitsF f (n / 10) ++ [digCh (n % 10)] by
            simp [natDigitsF, h10]]
        rw [digsToNat_snoc, h3, digVal_digCh hm]
        omega

theorem natDigits_spec (n : Nat) :
    natDigits n ≠ [] ∧ (natDigits n).all isDig = true ∧
    digsToNat (natDigits n) = n :=
  natDigitsF_spec (n + 1) n (by omega)

theorem dropPre_append (lit r : List Char) : dropPre lit (lit ++ r) = some r := by
  induction lit with
  | nil => rfl
  | cons c cs ih => simp [dropPre, ih]

theorem takeDigs_split {ds rest : List Char} (h : ds.all isDig = true)
    (hr : ∀ c r', rest = c :: r' → isDig c = false) :
    takeDigs (ds ++ rest) = (ds, rest) := by
  induction ds with
  | nil =>
    cases rest with
    | nil => rfl
    | cons c r' => simp [takeDigs, hr c r' rfl]
  | cons d ds ih =>
    simp only [List.all_cons, Bool.and_eq_true] at h
    simp [takeDigs, h.1, ih h.2]

theorem parseSpan_roundtrip (bn en : Nat) :
    parseSpan (String.mk ("span:".data ++ natDigits bn ++ [','] ++
      natDigits en)) = some (bn, en) := by
  obtain ⟨hb1, hb2, hb3⟩ := natDigits_spec bn
  obtain ⟨he1, he2, he3⟩ := natDigits_spec en
  unfold parseSpan
  have hdata : (String.mk ("span:".data ++ natDigits bn ++ [','] ++
      natDigits en)).data =
      "span:".data ++ (natDigits bn ++ (',' :: natDigits en)) := by
    simp
  rw [hdata, dropPre_append]
  have hsplit : takeDigs (natDigits bn ++ (',' :: natDigits en)) =
      (natDigits bn, ',' :: natDigits en) := by
    refine takeDigs_split hb2 ?_
    intro c r' hc
    injection hc with h1 h2
    subst h1
    decide
  have hsplit2 : takeDigs (natDigits en) = (natDigits en, []) := by
    have := @takeDigs_split (natDigits en) [] he2 (by simp)
    simpa using this
  simp [hsplit, hb1, hsplit2, he1, hb3, he3]

theorem pyInt_roundtrip (n : Int) : pyInt (String.mk (pyFormatD n)) = .ok n := by
  unfold pyInt pyFormatD
  by_cases hn : n < 0
  · obtain ⟨h1, h2, h3⟩ := natDigits_spec (-n).toNat
    simp only [if_pos hn]
    rcases hl : natDigits (-n).toNat with _ | ⟨c, cs⟩
    · exact absurd hl h1
    · rw [← hl]
      simp [h1, h2, h3]
      omega
  · obtain ⟨h1, h2, h3⟩ := natDigits_spec n.toNat
    simp only [if_neg hn]
    rcases hl : natDigits n.toNat with _ | ⟨c, cs⟩
    · exact absurd hl h1
    · have hc : isDig c = true := by
        rw [hl] at h2
        simp only [List.all_cons, Bool.and_eq_true] at h2
        exact h2.1
      have hcm : c ≠ '-' := (isDig_excl hc).1
      split
      · rename_i ds heq
        injection heq with hch
        exact absurd hch hcm
      · rw [← hl]
        simp [h1, h2, h3]
        omega

theorem findSome_cons_none {α β : Type} {f : α → Option β} {x : α}
    {xs : List α} (h : f x = none) :
    (x :: xs).findSome? f = xs.findSome? f := by
  simp [List.findSome?, h]

theorem findSome_cons_some {α β : Type} {f : α → Option β} {x : α}
    {xs : List α} {b : β} (h : f x = some b) :
    (x :: xs).findSome? f = some b := by
  simp [List.findSome?, h]

theorem findSome_map {α β γ : Type} (f : β → γ) (l : List β)
    (k : γ → Option α) :
    (l.map f).findSome? k = l.findSome? (fun x => k (f x)) := by
  induction l with
  | nil => rfl
  | cons x xs ih =>
    simp only [List.map_cons, List.findSome?]
    rcases h : k (f x) with _ | b
    · simpa [h] using ih
    · simp [h]

/-- Lazy-group matching: when the continuation rejects every split strictly
inside `g` and accepts the split at `g`, backtracking stops exactly there. -/
theorem findSome_dotSplits {α : Type} (g : List Char) :
    ∀ (rest : List Char) (k : List Char × List Char → Option α) (a : α),
    (∀ c ∈ g, c ≠ '\n') →
    (∀ i, i < g.length → k (g.take i, g.drop i ++ rest) = none) →
    k (g, rest) = some a →
    (dotSplits (g ++ rest)).findSome? k = some a := by
  induction g with
  | nil =>
    intro rest k a _ _ hit
    cases rest with
    | nil => rw [show dotSplits ([] ++ []) = [([], [])] from rfl,
                 findSome_cons_some hit]
    | cons c cs =>
      rw [show ([] : List Char) ++ c :: cs = c :: cs from rfl]
      rw [show dotSplits (c :: cs) = ([], c :: cs) ::
            (if c = '\n' then []
             else (dotSplits cs).map (fun pr => (c :: pr.1, pr.2))) from rfl]
      exact findSome_cons_some hit
  | cons c g ih =>
    intro rest k a hg hfail hit
    have hc : c ≠ '\n' := hg c (List.mem_cons_self c g)
    rw [show (c :: g) ++ rest = c :: (g ++ rest) from rfl]
    rw [show dotSplits (c :: (g ++ rest)) = ([], c :: (g ++ rest)) ::
          (if c = '\n' then []
           else (dotSplits (g ++ rest)).map (fun pr => (c :: pr.1, pr.2)))
        from rfl]
    have h0 : k ([], c :: (g ++ rest)) = none := by
      have := hfail 0 (by simp)
      simpa using this
    rw [findSome_cons_none h0, if_neg hc, findSome_map]
    refine ih rest (fun pr => k (c :: pr.1, pr.2)) a
      (fun d hd => hg d (List.mem_cons_of_mem c hd)) ?_ hit
    intro i hi
    have := hfail (i + 1) (by simpa using hi)
    simpa using this

theorem noSlashNl_spec {s : String} (h : noSlashNl s = true) :
    ∀ c ∈ s.data, c ≠ '/' ∧ c ≠ '\n' := by
  intro c hc
  simp only [noSlashNl, List.all_eq_true] at h
  have := h c hc
  simpa using this

theorem dropPre_head_ne {lit s : List Char} {c d : Char} (h : d ≠ c) :
    dropPre (c :: lit) (d :: s) = none := by
  simp [dropPre]
  intro he
  exact absurd he.symm h

theorem drop_head_ne {g : List Char} {i : Nat} (hi : i < g.length)
    (hg : ∀ c ∈ g, c ≠ '/') : ∃ c cs, g.drop i = c :: cs ∧ c ≠ '/' := by
  rw [List.drop_eq_getElem_cons hi]
  refine ⟨g[i], g.drop (i + 1), rfl, hg _ ?_⟩
  exact List.getElem_mem hi

theorem divsGroupK_head_ne {g l : List Char} {c : Char} (h : c ≠ '/') :
    divsGroupK (g, c :: l) = none := by
  unfold divsGroupK
  split
  · rename_i r heq
    injection heq with h1 h2
    exact absurd h1 h
  · rfl

theorem divsGroupK_hit (g : List Char) : divsGroupK (g, ['/']) = some g := rfl

theorem tailSlash_head_ne {l : List Char} {c : Char} (h : c ≠ '/') :
    tailSlash (c :: l) = none := by
  unfold tailSlash
  split
  · rename_i rest heq
    injection heq with h1 h2
    exact absurd h1 h
  · rfl

theorem divsTail_nil : divsTail [] = some none := rfl

theorem divsTail_divs {d : List Char} (hd : ∀ c ∈ d, c ≠ '/' ∧ c ≠ '\n') :
    divsTail ("divs/".data ++ (d ++ ['/'])) = some (some d) := by
  have hfs : (dotSplits (d ++ ['/'])).findSome? divsGroupK = some d := by
    refine findSome_dotSplits d ['/'] divsGroupK d (fun c hc => (hd c hc).2)
      ?_ (divsGroupK_hit d)
    intro i hi
    obtain ⟨c, cs, hdrop, hcne⟩ := drop_head_ne hi (fun c hc => (hd c hc).1)
    rw [hdrop]
    exact divsGroupK_head_ne hcne
  unfold divsTail
  rw [dropPre_append]
  simp [hfs]

theorem parse_base_data (pjl sdl sil tl : List Char) (dres : Option (List Char))
    (hpj : ∀ c ∈ pjl, c ≠ '/' ∧ c ≠ '\n')
    (hsd : ∀ c ∈ sdl, c ≠ '/' ∧ c ≠ '\n')
    (hsi : ∀ c ∈ sil, c ≠ '/' ∧ c ≠ '\n')
    (htl : tailSlash ('/' :: tl) = some dres) :
    parse_base (String.mk ("http://pubannotation.org/projects/".data ++
      (pjl ++ ("/docs/sourcedb/".data ++ (sdl ++ ("/sourceid/".data ++
      (sil ++ ('/' :: tl)))))))) =
    some (String.mk pjl, String.mk sdl, String.mk sil, dres.map String.mk) := by
  unfold parse_base
  rw [show (String.mk ("http://pubannotation.org/projects/".data ++
      (pjl ++ ("/docs/sourcedb/".data ++ (sdl ++ ("/sourceid/".data ++
      (sil ++ ('/' :: tl)))))))).data =
      "http://pubannotation.org/projects/".data ++
      (pjl ++ ("/docs/sourcedb/".data ++ (sdl ++ ("/sourceid/".data ++
      (sil ++ ('/' :: tl)))))) from rfl]
  rw [dropPre_append]
  refine findSome_dotSplits pjl _ _ _ (fun c hc => (hpj c hc).2) ?_ ?_
  · intro i hilt
    obtain ⟨c, cs, hdrop, hcne⟩ := drop_head_ne hilt (fun c hc => (hpj c hc).1)
    simp only [hdrop, List.cons_append]
    rw [dropPre_head_ne hcne]
  · simp only []
    rw [dropPre_append]
    refine findSome_dotSplits sdl _ _ _ (fun c hc => (hsd c hc).2) ?_ ?_
    · intro i hilt
      obtain ⟨c, cs, hdrop, hcne⟩ := drop_head_ne hilt (fun c hc => (hsd c hc).1)
      simp only [hdrop, List.cons_append]
      rw [dropPre_head_ne hcne]
    · simp only []
      rw [dropPre_append]
      refine findSome_dotSplits sil _ _ _ (fun c hc => (hsi c hc).2) ?_ ?_
      · intro i hilt
        obtain ⟨c, cs, hdrop, hcne⟩ := drop_head_ne hilt (fun c hc => (hsi c hc).1)
        simp only [hdrop, List.cons_append]
        rw [tailSlash_head_ne hcne]
      · simp only [htl]

theorem str_eq_of_data {s t : String} (h : s.data = t.data) : s = t := by
  cases s
  cases t
  exact congrArg String.mk (by simpa using h)

theorem parse_base_roundtrip (pj sd si : String) (dvo : Option String)
    (hp : noSlashNl pj = true) (hs : noSlashNl sd = true)
    (hi : noSlashNl si = true)
    (hd : ∀ s, dvo = some s → noSlashNl s = true) :
    parse_base ("http://pubannotation.org/projects/" ++ pj ++
      "/docs/sourcedb/" ++ sd ++ "/sourceid/" ++ si ++ "/" ++
      (match dvo with
       | some d => "divs/" ++ d ++ "/"
       | none => "")) = some (pj, sd, si, dvo) := by
  cases dvo with
  | none =>
    have h := parse_base_data pj.data sd.data si.data [] none
      (noSlashNl_spec hp) (noSlashNl_spec hs) (noSlashNl_spec hi)
      (by rw [show tailSlash ['/'] = divsTail [] from rfl, divsTail_nil])
    have harg : ("http://pubannotation.org/projects/" ++ pj ++
        "/docs/sourcedb/" ++ sd ++ "/sourceid/" ++ si ++ "/" ++ "") =
        String.mk ("http://pubannotation.org/projects/".data ++
          (pj.data ++ ("/docs/sourcedb/".data ++ (sd.data ++
          ("/sourceid/".data ++ (si.data ++ ('/' :: ([] : List Char)))))))) := by
      apply str_eq_of_data
      simp [String.data_append]
    rw [harg]
    simpa using h
  | some d =>
    have h := parse_base_data pj.data sd.data si.data
      ("divs/".data ++ (d.data ++ ['/'])) (some d.data)
      (noSlashNl_spec hp) (noSlashNl_spec hs) (noSlashNl_spec hi)
      (by
        rw [show tailSlash ('/' :: ("divs/".data ++ (d.data ++ ['/']))) =
              divsTail ("divs/".data ++ (d.data ++ ['/'])) from rfl]
        exact divsTail_divs (noSlashNl_spec (hd d rfl)))
    have harg : ("http://pubannotation.org/projects/" ++ pj ++
        "/docs/sourcedb/" ++ sd ++ "/sourceid/" ++ si ++ "/" ++
        ("divs/" ++ d ++ "/")) =
        String.mk ("http://pubannotation.org/projects/".data ++
          (pj.data ++ ("/docs/sourcedb/".data ++ (sd.data ++
          ("/sourceid/".data ++ (si.data ++
          ('/' :: ("divs/".data ++ (d.data ++ ['/']))))))))) := by
      apply str_eq_of_data
      simp [String.data_append]
    rw [harg]
    simpa using h

theorem ebind_ok {α β : Type} (a : α) (f : α → Except PyErr β) :
    (Except.ok a >>= f) = f a := rfl

theorem ebind_err {α β : Type} (e : PyErr) (f : α → Except PyErr β) :
    (Except.error e >>= f : Except PyErr β) = Except.error e := rfl

theorem droppedVal_false_iff {v : Json} :
    droppedVal v = false ↔ v ≠ .null ∧ v ≠ .arr [] := by
  cases v with
  | null => simp [droppedVal]
  | bool b => simp [droppedVal]
  | num n => simp [droppedVal]
  | str s => simp [droppedVal]
  | arr xs => cases xs <;> simp [droppedVal]
  | obj kvs => simp [droppedVal]

theorem lookupJA_mem {m : List (Json × Ann)} {k : Json} {a : Ann}
    (h : lookupJA m k = some a) : (k, a) ∈ m := by
  induction m with
  | nil => simp [lookupJA] at h
  | cons p rest ih =>
    obtain ⟨k', a'⟩ := p
    by_cases hk : beqJ k' k
    · rw [show lookupJA ((k', a') :: rest) k = some a' by simp [lookupJA, hk]]
        at h
      injection h with h'
      rw [beqJ_iff.mp hk]
      simp [h']
    · rw [show lookupJA ((k', a') :: rest) k = lookupJA rest k by
          simp [lookupJA, hk]] at h
      exact List.mem_cons_of_mem _ (ih h)

theorem lookupJA_none_iff {m : List (Json × Ann)} {k : Json} :
    lookupJA m k = none ↔ k ∉ m.map Prod.fst := by
  induction m with
  | nil => simp [lookupJA]
  | cons p rest ih =>
    obtain ⟨k', a'⟩ := p
    by_cases hk : beqJ k' k
    · have := beqJ_iff.mp hk
      subst this
      simp [lookupJA, hk]
    · have hne : k' ≠ k := fun he => hk (beqJ_iff.mpr he)
      simp [lookupJA, hk, ih, Ne.symm hne]

theorem lookupJA_isSome_iff {m : List (Json × Ann)} {k : Json} :
    (lookupJA m k).isSome = true ↔ k ∈ m.map Prod.fst := by
  rcases h : lookupJA m k with _ | a
  · simp [lookupJA_none_iff.mp h]
  · simp
    exact ⟨a, lookupJA_mem h⟩

theorem mem_lookupJA {m : List (Json × Ann)}
    (hnd : (m.map Prod.fst).Nodup) {k : Json} {a : Ann}
    (h : (k, a) ∈ m) : lookupJA m k = some a := by
  induction m with
  | nil => simp at h
  | cons p rest ih =>
    obtain ⟨k', a'⟩ := p
    rw [List.map_cons, List.nodup_cons] at hnd
    rcases List.mem_cons.mp h with h1 | h1
    · injection h1 with hk ha
      subst hk
      subst ha
      simp [lookupJA, beqJ_iff.mpr rfl]
    · have hmem : k ∈ rest.map Prod.fst := List.mem_map.mpr ⟨(k, a), h1, rfl⟩
      have hne : ¬ beqJ k' k := fun hb => hnd.1 (beqJ_iff.mp hb ▸ hmem)
      simp [lookupJA, hne]
      exact ih hnd.2 h1

theorem refStr_ok {r : Ref} {s : String} (h : refStr r = .ok s) :
    r = .idRef (.str s) := by
  cases r with
  | idRef v =>
    cases v
    case str => simp [refStr] at h; simp [h]
    all_goals simp [refStr] at h
  | annRef a => simp [refStr] at h

theorem resolveLookup_ok {m : List (Json × Ann)} {s : String} {a : Ann}
    (h : resolveLookup m s = .ok a) : lookupJA m (.str s) = some a := by
  unfold resolveLookup at h
  rcases hl : lookupJA m (.str s) with _ | b <;> rw [hl] at h
  · simp at h
  · injection h with h'
    rw [h']

theorem buildIdMap_consistent : ∀ (anns : List Ann) (acc m : List (Json × Ann)),
    (∀ p ∈ acc, Ann.id p.2 = p.1) → buildIdMap anns acc = .ok m →
    ∀ p ∈ m, Ann.id p.2 = p.1 := by
  intro anns
  induction anns with
  | nil =>
    intro acc m hacc h
    unfold buildIdMap at h
    injection h with h'
    exact h' ▸ hacc
  | cons a rest ih =>
    intro acc m hacc h
    unfold buildIdMap at h
    rcases hl : lookupJA acc a.id with _ | b <;> rw [hl] at h
    · refine ih (acc ++ [(a.id, a)]) m ?_ h
      intro p hp
      rcases List.mem_append.mp hp with h1 | h1
      · exact hacc p h1
      · simp at h1
        simp [h1]
    · simp at h

theorem get_ann_by_id_consistent {A : AnnDoc} {m : List (Json × Ann)}
    (h : A.get_ann_by_id = .ok m) : ∀ p ∈ m, Ann.id p.2 = p.1 :=
  buildIdMap_consistent A.annotations [] m (by simp) h

theorem buildIdMap_ok : ∀ (anns : List Ann) (acc : List (Json × Ann)),
    (acc.map Prod.fst ++ anns.map Ann.id).Nodup →
    buildIdMap anns acc = .ok (acc ++ anns.map (fun a => (a.id, a))) := by
  intro anns
  induction anns with
  | nil =>
    intro acc h
    simp [buildIdMap]
  | cons a rest ih =>
    intro acc h
    have hnotin : a.id ∉ acc.map Prod.fst := by
      intro hx
      rcases List.nodup_append.mp h with ⟨_, _, hdisj⟩
      exact hdisj hx (by simp)
    have hl : lookupJA acc a.id = none := lookupJA_none_iff.mpr hnotin
    unfold buildIdMap
    rw [hl]
    have hnd' : ((acc ++ [(a.id, a)]).map Prod.fst ++ rest.map Ann.id).Nodup := by
      simpa using h
    rw [ih (acc ++ [(a.id, a)]) hnd']
    simp

theorem buildIdMap_err : ∀ (anns : List Ann) (acc : List (Json × Ann)),
    (acc.map Prod.fst).Nodup →
    ¬ (acc.map Prod.fst ++ anns.map Ann.id).Nodup →
    buildIdMap anns acc = .error .duplicateId := by
  intro anns
  induction anns with
  | nil =>
    intro acc hacc hfull
    exact absurd (by simpa using hacc) hfull
  | cons a rest ih =>
    intro acc hacc hfull
    by_cases hx : a.id ∈ acc.map Prod.fst
    · have hsome : (lookupJA acc a.id).isSome = true := lookupJA_isSome_iff.mpr hx
      rcases hl : lookupJA acc a.id with _ | b
      · rw [hl] at hsome
        simp at hsome
      · unfold buildIdMap
        rw [hl]
    · have hl : lookupJA acc a.id = none := lookupJA_none_iff.mpr hx
      unfold buildIdMap
      rw [hl]
      refine ih (acc ++ [(a.id, a)]) ?_ ?_
      · simp [List.nodup_append, hacc, hx]
      · intro hcon
        exact hfull (by simpa using hcon)

/-- C5 helper: the ID map of a document, described exactly. -/
theorem get_ann_by_id_ok {A : AnnDoc}
    (h : (A.annotations.map Ann.id).Nodup) :
    A.get_ann_by_id = .ok (A.annotations.map (fun a => (a.id, a))) := by
  have := buildIdMap_ok A.annotations [] (by simpa using h)
  simpa [AnnDoc.get_ann_by_id] using this

theorem get_ann_by_id_err {A : AnnDoc}
    (h : ¬ (A.annotations.map Ann.id).Nodup) :
    A.get_ann_by_id = .error .duplicateId := by
  have := buildIdMap_err A.annotations [] (by simp) (by simpa using h)
  simpa [AnnDoc.get_ann_by_id] using this

theorem epure {α : Type} (a : α) : (pure a : Except PyErr α) = .ok a := rfl

/-- C5: in a document where two annotations (across the combined
collections) share an id, `get_ann_by_id` fails with `DuplicateIdError`;
with pairwise-distinct ids it returns a mapping sending each id to the
annotation object bearing it. -/
theorem c5_get_ann_by_id (A : AnnDoc) :
    (¬ (A.annotations.map Ann.id).Nodup →
      A.get_ann_by_id = .error .duplicateId) ∧
    ((A.annotations.map Ann.id).Nodup →
      ∃ m, A.get_ann_by_id = .ok m ∧
        ∀ a ∈ A.annotations, lookupJA m a.id = some a) := by
  constructor
  · exact get_ann_by_id_err
  · intro h
    refine ⟨_, get_ann_by_id_ok h, ?_⟩
    intro a ha
    apply mem_lookupJA
    · rw [show (A.annotations.map (fun a => (a.id, a))).map Prod.fst =
          A.annotations.map Ann.id from by simp]
      exact h
    · exact List.mem_map.mpr ⟨a, ha, rfl⟩

/-- Witness for C5: `dupDoc` has a duplicated id `T1`, `okDoc` has
pairwise-distinct ids. -/
theorem c5_witness :
    dupDoc.get_ann_by_id = .error .duplicateId ∧
    (∃ m, okDoc.get_ann_by_id = .ok m ∧
      ∀ a ∈ okDoc.annotations, lookupJA m a.id = some a) := by
  constructor
  · refine (c5_get_ann_by_id dupDoc).1 ?_
    intro h
    exact absurd (nodupJB_iff.mpr h) (by decide)
  · exact (c5_get_ann_by_id okDoc).2 (nodupJB_iff.mp (by decide))

theorem resolve_flag {A A' : AnnDoc} (h : A.resolve_ids = .ok A') :
    A'.ids_resolved = true := by
  unfold AnnDoc.resolve_ids at h
  by_cases hr : A.ids_resolved
  · rw [if_pos hr] at h
    injection h with h'
    rw [← h']
    exact hr
  · rw [if_neg hr] at h
    rcases hm : A.get_ann_by_id with e | m <;> rw [hm] at h
    · rw [ebind_err] at h
      simp at h
    · rw [ebind_ok] at h
      rcases hd : A.denotations.mapM (Ann.resolve_ids m) with e | ds <;>
        rw [hd] at h
      · rw [ebind_err] at h
        simp at h
      · rw [ebind_ok] at h
        rcases hr2 : A.relations.mapM (Ann.resolve_ids m) with e | rs <;>
          rw [hr2] at h
        · rw [ebind_err] at h
          simp at h
        · rw [ebind_ok] at h
          rcases hm2 : A.modifications.mapM (Ann.resolve_ids m) with e | ms <;>
            rw [hm2] at h
          · rw [ebind_err] at h
            simp at h
          · rw [ebind_ok, epure] at h
            injection h with h'
            rw [← h']

/-- C7: resolution is idempotent — once `resolve_ids` has completed on a
document, invoking it again returns the same document immediately (the
internal resolved flag short-circuits the second call). -/
theorem c7_resolve_idempotent (A A' : AnnDoc) (h : A.resolve_ids = .ok A') :
    A'.resolve_ids = .ok A' := by
  unfold AnnDoc.resolve_ids
  rw [if_pos (resolve_flag h)]

/-- Witness for C7 at `okDoc`. -/
theorem c7_witness : okDocRes.resolve_ids = .ok okDocRes :=
  c7_resolve_idempotent okDoc okDocRes (by rfl)

/-- C8: the mapping returned by `to_json` never contains a `null`-valued
or empty-array-valued key. -/
theorem c8_no_empty_fields (A : AnnDoc) (kvs : List (String × Json))
    (h : A.to_json = .ok (.obj kvs)) :
    ∀ kv ∈ kvs, kv.2 ≠ Json.null ∧ kv.2 ≠ Json.arr [] := by
  unfold AnnDoc.to_json at h
  rcases hd : A.denotations.mapM Ann.to_json with e | ds <;> rw [hd] at h
  · rw [ebind_err] at h
    simp at h
  · rw [ebind_ok] at h
    rcases hr : A.relations.mapM Ann.to_json with e | rs <;> rw [hr] at h
    · rw [ebind_err] at h
      simp at h
    · rw [ebind_ok] at h
      rcases hm : A.modifications.mapM Ann.to_json with e | ms <;> rw [hm] at h
      · rw [ebind_err] at h
        simp at h
      · rw [ebind_ok, epure] at h
        injection h with h'
        injection h' with h2
        intro kv hkv
        rw [← h2] at hkv
        have hmem := List.mem_filter.mp hkv
        have hb : droppedVal kv.2 = false := by
          have := hmem.2
          simpa using this
        exact droppedVal_false_iff.mp hb

/-- Witness for C8 at `okDoc`. -/
theorem c8_witness :
    (("text", Json.str "AB") : String × Json).2 ≠ Json.null ∧
    (("text", Json.str "AB") : String × Json).2 ≠ Json.arr [] :=
  c8_no_empty_fields okDoc
    [("text", Json.str "AB"),
     ("denotations", Json.arr
       [.obj [("id", .str "T1"),
              ("span", .obj [("begin", .num 0), ("end", .num 1)]),
              ("obj", .str "X")]]),
     ("relations", Json.arr
       [.obj [("id", .str "R1"), ("subj", .str "T1"),
              ("pred", .str "P"), ("obj", .str "T1")]]),
     ("modifications", Json.arr
       [.obj [("id", .str "M1"), ("pred", .str "Neg"),
              ("obj", .str "T1")]])] (by rfl)
    ("text", Json.str "AB") (List.mem_cons_self _ _)

/-- C10: native-JSON emission of an annotation is unchanged by resolution:
resolving against the document's ID map and then calling `to_json` gives
the same mapping as calling `to_json` on the unresolved annotation, because
`subj_id`/`obj_id` return the referenced annotation's id in either state. -/
theorem c10_to_json_resolution_invariant (A : AnnDoc)
    (m : List (Json × Ann)) (a a' : Ann) (hm : A.get_ann_by_id = .ok m)
    (ha : Ann.resolve_ids m a = .ok a') :
    a'.to_json = a.to_json := by
  have hcons := get_ann_by_id_consistent hm
  cases a with
  | den i b e o =>
    unfold Ann.resolve_ids at ha
    injection ha with h'
    rw [← h']
  | rel i s p o =>
    simp only [Ann.resolve_ids] at ha
    rcases hs : refStr s with e1 | ss <;> rw [hs] at ha
    · rw [ebind_err] at ha
      simp at ha
    · rw [ebind_ok] at ha
      rcases ho : refStr o with e1 | os <;> rw [ho] at ha
      · rw [ebind_err] at ha
        simp at ha
      · rw [ebind_ok] at ha
        rcases hsa : resolveLookup m ss with e1 | sa <;> rw [hsa] at ha
        · rw [ebind_err] at ha
          simp at ha
        · rw [ebind_ok] at ha
          rcases hoa : resolveLookup m os with e1 | oa <;> rw [hoa] at ha
          · rw [ebind_err] at ha
            simp at ha
          · rw [ebind_ok, epure] at ha
            injection ha with ha'
            have hsid : sa.id = .str ss :=
              hcons (Json.str ss, sa) (lookupJA_mem (resolveLookup_ok hsa))
            have hoid : oa.id = .str os :=
              hcons (Json.str os, oa) (lookupJA_mem (resolveLookup_ok hoa))
            rw [refStr_ok hs, refStr_ok ho, ← ha']
            unfold Ann.to_json
            simp [refId, hsid, hoid]
  | mod i p o =>
    simp only [Ann.resolve_ids] at ha
    rcases ho : refStr o with e1 | os <;> rw [ho] at ha
    · rw [ebind_err] at ha
      simp at ha
    · rw [ebind_ok] at ha
      rcases hoa : resolveLookup m os with e1 | oa <;> rw [hoa] at ha
      · rw [ebind_err] at ha
        simp at ha
      · rw [ebind_ok, epure] at ha
        injection ha with ha'
        have hoid : oa.id = .str os :=
          hcons (Json.str os, oa) (lookupJA_mem (resolveLookup_ok hoa))
        rw [refStr_ok ho, ← ha']
        unfold Ann.to_json
        simp [refId, hoid]

/-- Witness for C10: the `okDoc` relation emits identically before and
after resolution. -/
theorem c10_witness :
    (Ann.rel (.str "R1")
      (.annRef (.den (.str "T1") (.num 0) (.num 1) (.str "X"))) (.str "P")
      (.annRef (.den (.str "T1") (.num 0) (.num 1) (.str "X")))).to_json =
    (Ann.rel (.str "R1") (.idRef (.str "T1")) (.str "P")
      (.idRef (.str "T1"))).to_json :=
  c10_to_json_resolution_invariant okDoc okMap
    (.rel (.str "R1") (.idRef (.str "T1")) (.str "P") (.idRef (.str "T1")))
    (.rel (.str "R1")
      (.annRef (.den (.str "T1") (.num 0) (.num 1) (.str "X"))) (.str "P")
      (.annRef (.den (.str "T1") (.num 0) (.num 1) (.str "X"))))
    (by rfl) (by rfl)

/-- C4 (counterexample): in `relRelDoc` resolution of the whole document
succeeds, yet the first relation's `spans()` raises `AttributeError`
(its subject resolved to another Relation, which has no `begin`), so a
successfully resolved Relation need not yield two `(begin, end)` pairs. -/
theorem c4_counterexample :
    (relRelDoc.resolve_ids).map (fun A => A.relations.map Ann.spans) =
    .ok [.error .attributeError,
         .ok [(.num 0, .num 1), (.num 0, .num 1)]] := by rfl

/-- C4 (amended): `spans()` on a Relation whose `subj` and `obj` are still
unresolved ID strings fails with `ResolutionRequiredError`; after
resolution, provided the resolved subject and object are Denotations, it
returns exactly two pairs — the subject's own span followed by the
object's own span. -/
theorem c4_spans_amended :
    (∀ (i p : Json) (ss os : String),
      (Ann.rel i (.idRef (.str ss)) p (.idRef (.str os))).spans =
        .error .resolutionRequired) ∧
    (∀ (i p si sb se so oi ob oe oo : Json),
      (Ann.rel i (.annRef (.den si sb se so)) p
        (.annRef (.den oi ob oe oo))).spans = .ok [(sb, se), (ob, oe)] ∧
      (Ann.den si sb se so).spans = .ok [(sb, se)] ∧
      (Ann.den oi ob oe oo).spans = .ok [(ob, oe)]) := by
  constructor
  · intro i p ss os
    rfl
  · intro i p si sb se so oi ob oe oo
    exact ⟨rfl, rfl, rfl⟩

/-- C3 (counterexample): `from_jsonld` accepts a document whose only
`@graph` entry has the unrecognized `@type` `pa:Other` — the entry is
silently dropped from all three collections and no error is raised. -/
theorem c3_counterexample : AnnDoc.from_jsonld unkDoc = .ok unkDocRes := by
  rfl

theorem filterByType_sub {ty : String} : ∀ {gl res : List Json},
    filterByType ty gl = .ok res →
    ∀ x ∈ res, x ∈ gl ∧ jIndex x "@type" = .ok (.str ty) := by
  intro gl
  induction gl with
  | nil =>
    intro res h x hx
    unfold filterByType at h
    injection h with h'
    rw [← h'] at hx
    simp at hx
  | cons d rest ih =>
    intro res h x hx
    unfold filterByType at h
    rcases ht : jIndex d "@type" with e | t <;> rw [ht] at h
    · rw [ebind_err] at h
      simp at h
    · rw [ebind_ok] at h
      rcases htl : filterByType ty rest with e | tail <;> rw [htl] at h
      · rw [ebind_err] at h
        simp at h
      · rw [ebind_ok, epure] at h
        injection h with h'
        rw [← h'] at hx
        by_cases hb : beqJ t (Json.str ty)
        · rw [if_pos hb] at hx
          rcases List.mem_cons.mp hx with h1 | h1
          · subst h1
            exact ⟨List.mem_cons_self _ _, by rw [ht, beqJ_iff.mp hb]⟩
          · have := ih htl x h1
            exact ⟨List.mem_cons_of_mem _ this.1, this.2⟩
        · rw [if_neg hb] at hx
          have := ih htl x hx
          exact ⟨List.mem_cons_of_mem _ this.1, this.2⟩

/-- C3 (amended): a `@graph` entry whose `@type` is present but is none of
the three recognized URIs is silently ignored by `from_jsonld`'s
partition: it reaches none of the three collections, and the conversion
does not fail because of it. -/
theorem c3_unknown_type_ignored (gl res : List Json) (e ty : Json)
    (s : String) (hty : jIndex e "@type" = .ok ty)
    (hne : ty ≠ .str "pa:Denotation" ∧ ty ≠ .str "pa:Relation" ∧
           ty ≠ .str "pa:Modification")
    (hs : s = "pa:Denotation" ∨ s = "pa:Relation" ∨ s = "pa:Modification")
    (hres : filterByType s gl = .ok res) :
    e ∉ res := by
  intro hin
  have hsub := (filterByType_sub hres e hin).2
  rw [hty] at hsub
  injection hsub with h'
  rcases hs with h | h | h <;> subst h
  · exact hne.1 h'
  · exact hne.2.1 h'
  · exact hne.2.2 h'

/-- Witness for the amended C3 at the `unkDoc` graph. -/
theorem c3_witness :
    Json.obj [("@id", .str "X1"), ("@type", .str "pa:Other")] ∉
      ([] : List Json) :=
  c3_unknown_type_ignored
    [.obj [("@id", .str "X1"), ("@type", .str "pa:Other")]] []
    (.obj [("@id", .str "X1"), ("@type", .str "pa:Other")])
    (.str "pa:Other") "pa:Denotation" (by rfl)
    (by
      refine ⟨?_, ?_, ?_⟩ <;> intro h <;> injection h with h' <;>
        exact absurd h' (by decide))
    (Or.inl rfl) (by rfl)

theorem mapM_ok_or_miss {α β : Type} (f : α → Except PyErr β) :
    ∀ l : List α,
    (∀ x ∈ l, (∃ y, f x = .ok y) ∨
      (∃ t, f x = .error (.missingReference t))) →
    (∃ ys, l.mapM f = .ok ys) ∨
      (∃ t, l.mapM f = .error (.missingReference t)) := by
  intro l
  induction l with
  | nil =>
    intro _
    exact Or.inl ⟨[], rfl⟩
  | cons x xs ih =>
    intro h
    rcases h x (List.mem_cons_self x xs) with ⟨y, hy⟩ | ⟨t, ht⟩
    · rcases ih (fun z hz => h z (List.mem_cons_of_mem _ hz)) with
        ⟨ys, hys⟩ | ⟨t, ht⟩
      · exact Or.inl ⟨y :: ys, by
          rw [List.mapM_cons, hy, ebind_ok, hys, ebind_ok, epure]⟩
      · exact Or.inr ⟨t, by
          rw [List.mapM_cons, hy, ebind_ok, ht, ebind_err]⟩
    · exact Or.inr ⟨t, by rw [List.mapM_cons, ht, ebind_err]⟩

theorem mapM_err_of_elem {α β : Type} (f : α → Except PyErr β) :
    ∀ l : List α,
    (∀ x ∈ l, (∃ y, f x = .ok y) ∨
      (∃ t, f x = .error (.missingReference t))) →
    (∃ x ∈ l, ∀ y, f x ≠ .ok y) →
    ∃ t, l.mapM f = .error (.missingReference t) := by
  intro l
  induction l with
  | nil =>
    rintro _ ⟨x, hx, _⟩
    simp at hx
  | cons x xs ih =>
    rintro h ⟨z, hz, hne⟩
    rcases h x (List.mem_cons_self x xs) with ⟨y, hy⟩ | ⟨t, ht⟩
    · rcases List.mem_cons.mp hz with h1 | h1
      · subst h1
        exact absurd hy (by simpa using hne y)
      · obtain ⟨t, ht⟩ := ih (fun w hw => h w (List.mem_cons_of_mem _ hw))
          ⟨z, h1, hne⟩
        exact ⟨t, by rw [List.mapM_cons, hy, ebind_ok, ht, ebind_err]⟩
    · exact ⟨t, by rw [List.mapM_cons, ht, ebind_err]⟩

theorem resolve_ok_or_miss {m : List (Json × Ann)} {a : Ann}
    (h : annRefsStr a = true) :
    (∃ b, Ann.resolve_ids m a = .ok b) ∨
      (∃ t, Ann.resolve_ids m a = .error (.missingReference t)) := by
  cases a with
  | den i b e o => exact Or.inl ⟨.den i b e o, rfl⟩
  | rel i s p o =>
    simp only [annRefsStr, Bool.and_eq_true] at h
    obtain ⟨ss, hs⟩ : ∃ ss, s = .idRef (.str ss) := by
      cases s with
      | idRef v => cases v <;> simp [refIsStr] at h ⊢
      | annRef a => simp [refIsStr] at h
    obtain ⟨os, ho⟩ : ∃ os, o = .idRef (.str os) := by
      cases o with
      | idRef v => cases v <;> simp [refIsStr] at h ⊢
      | annRef a => simp [refIsStr] at h
    subst hs
    subst ho
    simp only [Ann.resolve_ids]
    rw [show refStr (Ref.idRef (Json.str ss)) = .ok ss from rfl, ebind_ok]
    rw [show refStr (Ref.idRef (Json.str os)) = .ok os from rfl, ebind_ok]
    rcases hsa : lookupJA m (.str ss) with _ | sa
    · rw [show resolveLookup m ss = .error (.missingReference ss) from by
          unfold resolveLookup
          rw [hsa], ebind_err]
      exact Or.inr ⟨ss, rfl⟩
    · rw [show resolveLookup m ss = .ok sa from by
          unfold resolveLookup
          rw [hsa], ebind_ok]
      rcases hoa : lookupJA m (.str os) with _ | oa
      · rw [show resolveLookup m os = .error (.missingReference os) from by
            unfold resolveLookup
            rw [hoa], ebind_err]
        exact Or.inr ⟨os, rfl⟩
      · rw [show resolveLookup m os = .ok oa from by
            unfold resolveLookup
            rw [hoa], ebind_ok, epure]
        exact Or.inl ⟨_, rfl⟩
  | mod i p o =>
    simp only [annRefsStr] at h
    obtain ⟨os, ho⟩ : ∃ os, o = .idRef (.str os) := by
      cases o with
      | idRef v => cases v <;> simp [refIsStr] at h ⊢
      | annRef a => simp [refIsStr] at h
    subst ho
    simp only [Ann.resolve_ids]
    rw [show refStr (Ref.idRef (Json.str os)) = .ok os from rfl, ebind_ok]
    rcases hoa : lookupJA m (.str os) with _ | oa
    · rw [show resolveLookup m os = .error (.missingReference os) from by
          unfold resolveLookup
          rw [hoa], ebind_err]
      exact Or.inr ⟨os, rfl⟩
    · rw [show resolveLookup m os = .ok oa from by
          unfold resolveLookup
          rw [hoa], ebind_ok, epure]
      exact Or.inl ⟨_, rfl⟩

theorem resolve_rel_missing {m : List (Json × Ann)} {i p : Json}
    {ss os : String} (hnone : lookupJA m (.str ss) = none) :
    ∀ b, Ann.resolve_ids m
      (Ann.rel i (.idRef (.str ss)) p (.idRef (.str os))) ≠ .ok b := by
  intro b hb
  simp only [Ann.resolve_ids] at hb
  rw [show refStr (Ref.idRef (Json.str ss)) = .ok ss from rfl, ebind_ok] at hb
  rw [show refStr (Ref.idRef (Json.str os)) = .ok os from rfl, ebind_ok] at hb
  rw [show resolveLookup m ss = .error (.missingReference ss) from by
      unfold resolveLookup
      rw [hnone], ebind_err] at hb
  simp at hb

theorem mem_annotations_of_rel {A : AnnDoc} {r : Ann}
    (h : r ∈ A.relations) : r ∈ A.annotations := by
  unfold AnnDoc.annotations
  exact List.mem_append.mpr (Or.inl (List.mem_append.mpr (Or.inr h)))

/-- C6: an unresolved document with distinct ids and string-valued
references, containing a Relation whose `subj` ID does not occur as any
annotation's id, fails `resolve_ids` with `MissingReferenceError`. -/
theorem c6_missing_reference (A : AnnDoc) (i p : Json) (ss os : String)
    (hres : A.ids_resolved = false)
    (hnd : (A.annotations.map Ann.id).Nodup)
    (hstr : ∀ a ∈ A.annotations, annRefsStr a = true)
    (hr : Ann.rel i (.idRef (.str ss)) p (.idRef (.str os)) ∈ A.relations)
    (hmiss : Json.str ss ∉ A.annotations.map Ann.id) :
    ∃ t, A.resolve_ids = .error (.missingReference t) := by
  unfold AnnDoc.resolve_ids
  rw [if_neg (by rw [hres]; exact Bool.false_ne_true)]
  rw [get_ann_by_id_ok hnd, ebind_ok]
  set m := A.annotations.map (fun a => (a.id, a)) with hm
  have hm_none : lookupJA m (.str ss) = none := by
    apply lookupJA_none_iff.mpr
    rw [hm]
    simpa using hmiss
  have hdens : ∀ x ∈ A.denotations, (∃ y, Ann.resolve_ids m x = .ok y) ∨
      (∃ t, Ann.resolve_ids m x = .error (.missingReference t)) := by
    intro x hx
    refine resolve_ok_or_miss (hstr x ?_)
    unfold AnnDoc.annotations
    exact List.mem_append.mpr (Or.inl (List.mem_append.mpr (Or.inl hx)))
  have hrels : ∀ x ∈ A.relations, (∃ y, Ann.resolve_ids m x = .ok y) ∨
      (∃ t, Ann.resolve_ids m x = .error (.missingReference t)) := by
    intro x hx
    exact resolve_ok_or_miss (hstr x (mem_annotations_of_rel hx))
  rcases mapM_ok_or_miss (Ann.resolve_ids m) A.denotations hdens with
    ⟨ds, hds⟩ | ⟨t, ht⟩
  · rw [hds, ebind_ok]
    obtain ⟨t, ht⟩ := mapM_err_of_elem (Ann.resolve_ids m) A.relations hrels
      ⟨_, hr, resolve_rel_missing hm_none⟩
    rw [ht, ebind_err]
    exact ⟨t, rfl⟩
  · rw [ht, ebind_err]
    exact ⟨t, rfl⟩

/-- Witness for C6 at `missDoc` (its relation references the absent `T9`). -/
theorem c6_witness :
    ∃ t, missDoc.resolve_ids = .error (.missingReference t) :=
  c6_missing_reference missDoc (.str "R1") (.str "P") "T9" "T1" rfl
    (nodupJB_iff.mp (by decide)) (by decide)
    (List.mem_cons_self _ _)
    (fun h => absurd (memJ_iff.mpr h) (by decide))

/-- C9: for string-valued URI components (free of `/` and newline),
`base_url` produces exactly the templated URI — with the `divs/{divid}/`
segment exactly when `divid` is non-null — and `parse_base` recovers the
original components from it instead of failing. -/
theorem c9_base_uri_roundtrip (A : AnnDoc) (pj sd si : String)
    (hpj : A.project = .str pj) (hsd : A.sourcedb = .str sd)
    (hsi : A.sourceid = .str si) (hp : noSlashNl pj = true)
    (hs : noSlashNl sd = true) (hx : noSlashNl si = true) :
    (A.divid = .null →
      A.base_url = "http://pubannotation.org/projects/" ++ pj ++
        "/docs/sourcedb/" ++ sd ++ "/sourceid/" ++ si ++ "/" ∧
      parse_base A.base_url = some (pj, sd, si, none)) ∧
    (∀ dv : String, A.divid = .str dv → noSlashNl dv = true →
      A.base_url = "http://pubannotation.org/projects/" ++ pj ++
        "/docs/sourcedb/" ++ sd ++ "/sourceid/" ++ si ++ "/divs/" ++ dv ++
        "/" ∧
      parse_base A.base_url = some (pj, sd, si, some dv)) := by
  constructor
  · intro hdv
    have hurl : A.base_url = "http://pubannotation.org/projects/" ++ pj ++
        "/docs/sourcedb/" ++ sd ++ "/sourceid/" ++ si ++ "/" := by
      unfold AnnDoc.base_url
      rw [hdv, hpj, hsd, hsi]
      simp [pyStr]
    refine ⟨hurl, ?_⟩
    rw [hurl]
    have h := parse_base_roundtrip pj sd si none hp hs hx
      (by intro s h; cases h)
    rw [show ("http://pubannotation.org/projects/" ++ pj ++
        "/docs/sourcedb/" ++ sd ++ "/sourceid/" ++ si ++ "/" : String) =
        ("http://pubannotation.org/projects/" ++ pj ++
        "/docs/sourcedb/" ++ sd ++ "/sourceid/" ++ si ++ "/" ++
        (match (none : Option String) with
         | some d => "divs/" ++ d ++ "/"
         | none => "") : String) from by
      apply str_eq_of_data
      simp [String.data_append]]
    exact h
  · intro dv hdv hdvs
    have hurl : A.base_url = "http://pubannotation.org/projects/" ++ pj ++
        "/docs/sourcedb/" ++ sd ++ "/sourceid/" ++ si ++ "/divs/" ++ dv ++
        "/" := by
      unfold AnnDoc.base_url
      rw [hdv, hpj, hsd, hsi]
      apply str_eq_of_data
      simp [pyStr, String.data_append]
    refine ⟨hurl, ?_⟩
    rw [hurl]
    have h := parse_base_roundtrip pj sd si (some dv) hp hs hx
      (by
        intro s hse
        injection hse with h'
        rw [← h']
        exact hdvs)
    rw [show ("http://pubannotation.org/projects/" ++ pj ++
        "/docs/sourcedb/" ++ sd ++ "/sourceid/" ++ si ++ "/divs/" ++ dv ++
        "/" : String) =
        ("http://pubannotation.org/projects/" ++ pj ++
        "/docs/sourcedb/" ++ sd ++ "/sourceid/" ++ si ++ "/" ++
        (match (some dv : Option String) with
         | some d => "divs/" ++ d ++ "/"
         | none => "") : String) from by
      apply str_eq_of_data
      simp [String.data_append]]
    exact h

/-- Witness for C9 at `uriDocA` (no div) and `uriDocB` (div `7`). -/
theorem c9_witness :
    (uriDocA.base_url =
      "http://pubannotation.org/projects/proj/docs/sourcedb/PMC/sourceid/12345/" ∧
     parse_base uriDocA.base_url = some ("proj", "PMC", "12345", none)) ∧
    (uriDocB.base_url =
      "http://pubannotation.org/projects/proj/docs/sourcedb/PMC/sourceid/12345/divs/7/" ∧
     parse_base uriDocB.base_url = some ("proj", "PMC", "12345", some "7")) := by
  constructor
  · have h := (c9_base_uri_roundtrip uriDocA "proj" "PMC" "12345" rfl rfl rfl
      (by decide) (by decide) (by decide)).1 rfl
    simpa using h
  · have h := (c9_base_uri_roundtrip uriDocB "proj" "PMC" "12345" rfl rfl rfl
      (by decide) (by decide) (by decide)).2 "7" rfl (by decide)
    simpa using h

theorem canonK_map (l : List (String × Json)) :
    canonK l = l.map (fun kv => (kv.1, canon kv.2)) := by
  induction l with
  | nil => rfl
  | cons kv rest ih =>
    obtain ⟨k, v⟩ := kv
    simp [canonK, ih]

theorem canonL_map (l : List Json) : canonL l = l.map canon := by
  induction l with
  | nil => rfl
  | cons x xs ih => simp [canonL, ih]

theorem mapM_ok_fun {α β : Type} (f : α → Except PyErr β) (g : α → β) :
    ∀ l : List α, (∀ x ∈ l, f x = .ok (g x)) → l.mapM f = .ok (l.map g) := by
  intro l
  induction l with
  | nil =>
    intro _
    rfl
  | cons x xs ih =>
    intro h
    rw [List.mapM_cons, h x (List.mem_cons_self x xs), ebind_ok,
      ih (fun z hz => h z (List.mem_cons_of_mem _ hz)), ebind_ok, epure,
      List.map_cons]

theorem collOk_val {kvs : List (String × Json)} {k : String} {p : Json → Bool}
    (h : collOk kvs k p = true) :
    (lookupJ kvs k).getD (Json.arr []) = .arr (getColl kvs k) ∧
    (∀ el ∈ getColl kvs k, p el = true) ∧
    (∀ v, lookupJ kvs k = some v → v = .arr (getColl kvs k)) := by
  unfold collOk at h
  unfold getColl
  rcases hl : lookupJ kvs k with _ | v
  · simp
  · rw [hl] at h
    cases v with
    | arr els => simpa using h
    | null => simp at h
    | bool b => simp at h
    | num n => simp at h
    | str s => simp at h
    | obj o => simp at h

theorem keysExact_lookup {kvs : List (String × Json)} {ks : List String}
    (hex : keysExact kvs ks = true) {k : String} (hk : k ∈ ks) :
    lookupJ kvs k = some ((lookupJ kvs k).getD .null) := by
  simp only [keysExact, Bool.and_eq_true, List.all_eq_true] at hex
  have := hex.2 k hk
  unfold keyMemB at this
  rcases hl : lookupJ kvs k with _ | v
  · rw [hl] at this
    simp at this
  · simp

theorem map_fst_pairs (g : String → Json) (ks : List String) :
    (ks.map (fun k => (k, g k))).map Prod.fst = ks := by
  induction ks with
  | nil => rfl
  | cons k ks ih => simp [ih]

theorem perm_explicit {kvs : List (String × Json)} {ks : List String}
    (hks : ks.Nodup) (hex : keysExact kvs ks = true) :
    List.Perm kvs (ks.map (fun k => (k, (lookupJ kvs k).getD .null))) := by
  apply perm_of_lookups
  · rw [map_fst_pairs]
    exact keysExact_perm hks hex
  · rw [map_fst_pairs]
    exact hks
  · intro p hp
    obtain ⟨k, hk, hkp⟩ := List.mem_map.mp hp
    rw [← hkp]
    exact keysExact_lookup hex hk

theorem canon_obj_perm {l pairs : List (String × Json)}
    (hperm : List.Perm l pairs) (hnd : (l.map Prod.fst).Nodup) :
    canon (.obj l) = canon (.obj pairs) := by
  rw [show canon (Json.obj l) = .obj (sortKvs (canonK l)) from rfl,
      show canon (Json.obj pairs) = .obj (sortKvs (canonK pairs)) from rfl]
  congr 1
  apply sortKvs_eq_of_perm
  · rw [canonK_map, canonK_map]
    exact hperm.map _
  · rw [canonK_map]
    simpa [List.map_map, Function.comp] using hnd

theorem canon_relOutEl {el : Json} (h : validRel el = true) :
    canon (relOutEl el) = canon el := by
  rcases el with _ | b | n | s | xs | d
  case obj =>
    simp only [validRel, Bool.and_eq_true] at h
    have hex := h.1
    have hperm := @perm_explicit d ["id", "subj", "pred", "obj"]
      (by decide) hex
    have h1 := canon_obj_perm hperm (keysExact_nodup hex)
    rw [show (["id", "subj", "pred", "obj"].map
        (fun k => (k, (lookupJ d k).getD .null))) =
        [("id", (lookupJ d "id").getD .null),
         ("subj", (lookupJ d "subj").getD .null),
         ("pred", (lookupJ d "pred").getD .null),
         ("obj", (lookupJ d "obj").getD .null)] from rfl] at h1
    rw [show relOutEl (.obj d) =
        .obj [("id", (lookupJ d "id").getD .null),
              ("subj", (lookupJ d "subj").getD .null),
              ("pred", (lookupJ d "pred").getD .null),
              ("obj", (lookupJ d "obj").getD .null)] from rfl]
    exact h1.symm
  all_goals simp [validRel] at h

theorem canon_modOutEl {el : Json} (h : validMod el = true) :
    canon (modOutEl el) = canon el := by
  rcases el with _ | b | n | s | xs | d
  case obj =>
    simp only [validMod, Bool.and_eq_true] at h
    have hex := h.1
    have hperm := @perm_explicit d ["id", "pred", "obj"] (by decide) hex
    have h1 := canon_obj_perm hperm (keysExact_nodup hex)
    rw [show (["id", "pred", "obj"].map
        (fun k => (k, (lookupJ d k).getD .null))) =
        [("id", (lookupJ d "id").getD .null),
         ("pred", (lookupJ d "pred").getD .null),
         ("obj", (lookupJ d "obj").getD .null)] from rfl] at h1
    rw [show modOutEl (.obj d) =
        .obj [("id", (lookupJ d "id").getD .null),
              ("pred", (lookupJ d "pred").getD .null),
              ("obj", (lookupJ d "obj").getD .null)] from rfl]
    exact h1.symm
  all_goals simp [validMod] at h

theorem canon_denOutEl {el : Json} (h : validDeno el = true) :
    canon (denOutEl el) = canon el := by
  rcases el with _ | b | n | s | xs | d
  case obj =>
    simp only [validDeno] at h
    rcases hsp : lookupJ d "span" with _ | spv
    · rw [hsp] at h
      simp at h
    · rw [hsp] at h
      cases spv with
      | obj sp =>
        simp only [Bool.and_eq_true] at h
        obtain ⟨hex, hsex⟩ := h
        have hperm := @perm_explicit d ["id", "span", "obj"]
          (by decide) hex
        have h1 := canon_obj_perm hperm (keysExact_nodup hex)
        rw [show (["id", "span", "obj"].map
            (fun k => (k, (lookupJ d k).getD .null))) =
            [("id", (lookupJ d "id").getD .null),
             ("span", (lookupJ d "span").getD .null),
             ("obj", (lookupJ d "obj").getD .null)] from rfl, hsp] at h1
        have hspperm := @perm_explicit sp ["begin", "end"]
          (by decide) hsex
        have h2 := canon_obj_perm hspperm (keysExact_nodup hsex)
        rw [show (["begin", "end"].map
            (fun k => (k, (lookupJ sp k).getD .null))) =
            [("begin", (lookupJ sp "begin").getD .null),
             ("end", (lookupJ sp "end").getD .null)] from rfl] at h2
        have hspan : spanOf (.obj d) = .obj sp := by simp [spanOf, hsp]
        rw [show denOutEl (.obj d) =
            .obj [("id", (lookupJ d "id").getD .null),
                  ("span", .obj [("begin",
                     refField (spanOf (.obj d)) "begin"),
                   ("end", refField (spanOf (.obj d)) "end")]),
                  ("obj", (lookupJ d "obj").getD .null)] from rfl]
        rw [hspan]
        rw [show refField (Json.obj sp) "begin" =
            (lookupJ sp "begin").getD .null from rfl]
        rw [show refField (Json.obj sp) "end" =
            (lookupJ sp "end").getD .null from rfl]
        rw [h1]
        simp only [Option.getD_some]
        rw [show canon (Json.obj
            [("id", (lookupJ d "id").getD Json.null),
             ("span", Json.obj [("begin", (lookupJ sp "begin").getD Json.null),
                ("end", (lookupJ sp "end").getD Json.null)]),
             ("obj", (lookupJ d "obj").getD Json.null)]) =
            Json.obj (sortKvs
              [("id", canon ((lookupJ d "id").getD Json.null)),
               ("span", canon (Json.obj
                  [("begin", (lookupJ sp "begin").getD Json.null),
                   ("end", (lookupJ sp "end").getD Json.null)])),
               ("obj", canon ((lookupJ d "obj").getD Json.null))]) from rfl]
        rw [show canon (Json.obj
            [("id", (lookupJ d "id").getD Json.null),
             ("span", Json.obj sp),
             ("obj", (lookupJ d "obj").getD Json.null)]) =
            Json.obj (sortKvs
              [("id", canon ((lookupJ d "id").getD Json.null)),
               ("span", canon (Json.obj sp)),
               ("obj", canon ((lookupJ d "obj").getD Json.null))]) from rfl]
        rw [h2]
      | null =>
        simp at h
      | bool b =>
        simp at h
      | num n =>
        simp at h
      | str s =>
        simp at h
      | arr xs =>
        simp at h
  all_goals simp [validDeno] at h

theorem rel_from_json_obj (d : List (String × Json)) :
    relFromJson (.obj d) = .ok (relOfEl (.obj d)) := rfl

theorem mod_from_json_obj (d : List (String × Json)) :
    modFromJson (.obj d) = .ok (modOfEl (.obj d)) := rfl

theorem den_from_json_valid {el : Json} (h : validDeno el = true) :
    denFromJson el = .ok (denOfEl el) := by
  rcases el with _ | b | n | s | xs | d
  case obj =>
    simp only [validDeno] at h
    rcases hsp : lookupJ d "span" with _ | spv
    · rw [hsp] at h
      simp at h
    · rw [hsp] at h
      cases spv with
      | obj sp =>
        unfold denFromJson
        rw [show jGet (.obj d) "span" (.obj []) =
            .ok ((lookupJ d "span").getD (.obj [])) from rfl, hsp, ebind_ok]
        simp only [Option.getD_some]
        rw [show jGetN (.obj d) "id" =
            .ok ((lookupJ d "id").getD .null) from rfl, ebind_ok]
        rw [show jGetN (.obj sp) "begin" =
            .ok ((lookupJ sp "begin").getD .null) from rfl, ebind_ok]
        rw [show jGetN (.obj sp) "end" =
            .ok ((lookupJ sp "end").getD .null) from rfl, ebind_ok]
        rw [show jGetN (.obj d) "obj" =
            .ok ((lookupJ d "obj").getD .null) from rfl, ebind_ok, epure]
        simp [denOfEl, refField, spanOf, hsp]
      | null => simp at h
      | bool b => simp at h
      | num n => simp at h
      | str s => simp at h
      | arr xs => simp at h
  all_goals simp [validDeno] at h

theorem rel_to_json_valid {el : Json} (h : validRel el = true) :
    (relOfEl el).to_json = .ok (relOutEl el) := by
  rcases el with _ | b | n | s | xs | d
  case obj =>
    simp only [validRel, Bool.and_eq_true] at h
    have h2 := h.2
    rcases hsv : lookupJ d "subj" with _ | sv <;> rw [hsv] at h2
    · simp at h2
    · rcases hov : lookupJ d "obj" with _ | ov <;> rw [hov] at h2
      · simp at h2
      · simp only [Bool.and_eq_true] at h2
        obtain ⟨hsvs, hovs⟩ := h2
        cases sv with
        | str ssv =>
          cases ov with
          | str sov =>
            rw [show relOfEl (.obj d) =
                .rel ((lookupJ d "id").getD .null)
                  (.idRef ((lookupJ d "subj").getD .null))
                  ((lookupJ d "pred").getD .null)
                  (.idRef ((lookupJ d "obj").getD .null)) from rfl,
                hsv, hov]
            simp only [Option.getD_some]
            rw [show (Ann.rel ((lookupJ d "id").getD .null)
                (.idRef (.str ssv)) ((lookupJ d "pred").getD .null)
                (.idRef (.str sov))).to_json =
                .ok (.obj [("id", (lookupJ d "id").getD .null),
                  ("subj", .str ssv),
                  ("pred", (lookupJ d "pred").getD .null),
                  ("obj", .str sov)]) from rfl]
            rw [show relOutEl (.obj d) =
                .obj [("id", (lookupJ d "id").getD .null),
                  ("subj", (lookupJ d "subj").getD .null),
                  ("pred", (lookupJ d "pred").getD .null),
                  ("obj", (lookupJ d "obj").getD .null)] from rfl, hsv, hov]
            simp
          | null => simp [isStrJ] at hovs
          | bool b => simp [isStrJ] at hovs
          | num n => simp [isStrJ] at hovs
          | arr a => simp [isStrJ] at hovs
          | obj o => simp [isStrJ] at hovs
        | null => simp [isStrJ] at hsvs
        | bool b => simp [isStrJ] at hsvs
        | num n => simp [isStrJ] at hsvs
        | arr a => simp [isStrJ] at hsvs
        | obj o => simp [isStrJ] at hsvs
  all_goals simp [validRel] at h

theorem mod_to_json_valid {el : Json} (h : validMod el = true) :
    (modOfEl el).to_json = .ok (modOutEl el) := by
  rcases el with _ | b | n | s | xs | d
  case obj =>
    simp only [validMod, Bool.and_eq_true] at h
    have h2 := h.2
    rcases hov : lookupJ d "obj" with _ | ov <;> rw [hov] at h2
    · simp at h2
    · cases ov with
      | str sov =>
        rw [show modOfEl (.obj d) =
            .mod ((lookupJ d "id").getD .null)
              ((lookupJ d "pred").getD .null)
              (.idRef ((lookupJ d "obj").getD .null)) from rfl, hov]
        simp only [Option.getD_some]
        rw [show (Ann.mod ((lookupJ d "id").getD .null)
            ((lookupJ d "pred").getD .null)
            (.idRef (.str sov))).to_json =
            .ok (.obj [("id", (lookupJ d "id").getD .null),
              ("pred", (lookupJ d "pred").getD .null),
              ("obj", .str sov)]) from rfl]
        rw [show modOutEl (.obj d) =
            .obj [("id", (lookupJ d "id").getD .null),
              ("pred", (lookupJ d "pred").getD .null),
              ("obj", (lookupJ d "obj").getD .null)] from rfl, hov]
        simp
      | null => simp [isStrJ] at h2
      | bool b => simp [isStrJ] at h2
      | num n => simp [isStrJ] at h2
      | arr a => simp [isStrJ] at h2
      | obj o => simp [isStrJ] at h2
  all_goals simp [validMod] at h

theorem validDeno_of_collOk {kvs : List (String × Json)}
    (h : collOk kvs "denotations" validDeno = true) :
    ∀ el ∈ getColl kvs "denotations", validDeno el = true :=
  (collOk_val h).2.1

theorem from_json_valid {kvs : List (String × Json)}
    (h : validNative (.obj kvs) = true) :
    AnnDoc.from_json (.obj kvs) = .ok (docOf kvs) := by
  simp only [validNative, Bool.and_eq_true] at h
  obtain ⟨⟨⟨⟨hnd, hamong⟩, hcd⟩, hcr⟩, hcm⟩ := h
  unfold AnnDoc.from_json
  rw [show jGet (.obj kvs) "denotations" (Json.arr []) =
      .ok ((lookupJ kvs "denotations").getD (.arr [])) from rfl, ebind_ok]
  rw [show jGet (.obj kvs) "relations" (Json.arr []) =
      .ok ((lookupJ kvs "relations").getD (.arr [])) from rfl, ebind_ok]
  rw [show jGet (.obj kvs) "modifications" (Json.arr []) =
      .ok ((lookupJ kvs "modifications").getD (.arr [])) from rfl, ebind_ok]
  rw [(collOk_val hcd).1, (collOk_val hcr).1, (collOk_val hcm).1]
  rw [show asList (.arr (getColl kvs "denotations")) =
      .ok (getColl kvs "denotations") from rfl, ebind_ok]
  rw [show asList (.arr (getColl kvs "relations")) =
      .ok (getColl kvs "relations") from rfl, ebind_ok]
  rw [show asList (.arr (getColl kvs "modifications")) =
      .ok (getColl kvs "modifications") from rfl, ebind_ok]
  rw [mapM_ok_fun denFromJson denOfEl _
      (fun el hel => den_from_json_valid ((collOk_val hcd).2.1 el hel)),
      ebind_ok]
  rw [mapM_ok_fun relFromJson relOfEl _ (fun el hel => by
      have hv := (collOk_val hcr).2.1 el hel
      rcases el with _ | b | n | s | xs | d
      case obj => exact rel_from_json_obj d
      all_goals simp [validRel] at hv), ebind_ok]
  rw [mapM_ok_fun modFromJson modOfEl _ (fun el hel => by
      have hv := (collOk_val hcm).2.1 el hel
      rcases el with _ | b | n | s | xs | d
      case obj => exact mod_from_json_obj d
      all_goals simp [validMod] at hv), ebind_ok]
  rw [show jGetN (.obj kvs) "target" =
      .ok ((lookupJ kvs "target").getD .null) from rfl, ebind_ok]
  rw [show jGetN (.obj kvs) "text" =
      .ok ((lookupJ kvs "text").getD .null) from rfl, ebind_ok]
  rw [show jGetN (.obj kvs) "project" =
      .ok ((lookupJ kvs "project").getD .null) from rfl, ebind_ok]
  rw [show jGetN (.obj kvs) "sourcedb" =
      .ok ((lookupJ kvs "sourcedb").getD .null) from rfl, ebind_ok]
  rw [show jGetN (.obj kvs) "sourceid" =
      .ok ((lookupJ kvs "sourceid").getD .null) from rfl, ebind_ok]
  rw [show jGetN (.obj kvs) "divid" =
      .ok ((lookupJ kvs "divid").getD .null) from rfl, ebind_ok]
  rw [show jGet (.obj kvs) "namespaces" (Json.arr []) =
      .ok ((lookupJ kvs "namespaces").getD (.arr [])) from rfl, ebind_ok,
      epure]
  rfl

theorem mapM_to_json_map (f : Json → Ann) (g : Json → Json) :
    ∀ l : List Json, (∀ el ∈ l, (f el).to_json = .ok (g el)) →
    (l.map f).mapM Ann.to_json = .ok (l.map g) := by
  intro l
  induction l with
  | nil =>
    intro _
    rfl
  | cons x xs ih =>
    intro h
    rw [List.map_cons, List.mapM_cons, h x (List.mem_cons_self x xs),
      ebind_ok, ih (fun z hz => h z (List.mem_cons_of_mem _ hz)), ebind_ok,
      epure, List.map_cons]

theorem to_json_docOf {kvs : List (String × Json)}
    (h : validNative (.obj kvs) = true) :
    (docOf kvs).to_json =
      .ok (.obj ((out0 kvs).filter (fun kv => !droppedVal kv.2))) := by
  simp only [validNative, Bool.and_eq_true] at h
  obtain ⟨⟨⟨⟨hnd, hamong⟩, hcd⟩, hcr⟩, hcm⟩ := h
  unfold AnnDoc.to_json
  rw [show (docOf kvs).denotations =
      (getColl kvs "denotations").map denOfEl from rfl]
  rw [show (docOf kvs).relations =
      (getColl kvs "relations").map relOfEl from rfl]
  rw [show (docOf kvs).modifications =
      (getColl kvs "modifications").map modOfEl from rfl]
  rw [mapM_to_json_map denOfEl denOutEl _ (fun el _ => by
      rcases el with _ | b | n | s | xs | d <;> rfl), ebind_ok]
  rw [mapM_to_json_map relOfEl relOutEl _ (fun el hel =>
      rel_to_json_valid ((collOk_val hcr).2.1 el hel)), ebind_ok]
  rw [mapM_to_json_map modOfEl modOutEl _ (fun el hel =>
      mod_to_json_valid ((collOk_val hcm).2.1 el hel)), ebind_ok, epure]
  rfl

theorem map_fst_cp (l : List (String × Json)) :
    (l.map (fun kv => (kv.1, canon kv.2))).map Prod.fst = l.map Prod.fst := by
  induction l with
  | nil => rfl
  | cons kv rest ih => simp [ih]

theorem mem_filter_canon {l : List (String × Json)}
    (hnd : (l.map Prod.fst).Nodup) (p : String × Json) :
    (p ∈ (l.filter (fun kv => !droppedVal kv.2)).map
        (fun kv => (kv.1, canon kv.2))) ↔
    ∃ v, lookupJ l p.1 = some v ∧ droppedVal v = false ∧ p.2 = canon v := by
  constructor
  · intro hp
    obtain ⟨q, hq, hqp⟩ := List.mem_map.mp hp
    obtain ⟨hql, hqd⟩ := List.mem_filter.mp hq
    obtain ⟨q1, q2⟩ := q
    obtain ⟨p1, p2⟩ := p
    injection hqp with h1 h2
    subst h1
    subst h2
    refine ⟨q2, mem_lookupJ hnd hql, ?_, rfl⟩
    simpa using hqd
  · rintro ⟨v, hlk, hdv, hcv⟩
    have hmem := lookupJ_mem hlk
    apply List.mem_map.mpr
    refine ⟨(p.1, v), List.mem_filter.mpr ⟨hmem, by simp [hdv]⟩, ?_⟩
    obtain ⟨p1, p2⟩ := p
    simp at hcv
    simp [hcv]

theorem droppedVal_arr_false {xs : List Json} (h : xs ≠ []) :
    droppedVal (.arr xs) = false := by
  cases xs with
  | nil => exact absurd rfl h
  | cons x rest => rfl

theorem droppedVal_arr_ne {xs : List Json} (h : droppedVal (.arr xs) = false) :
    xs ≠ [] := by
  intro he
  subst he
  simp [droppedVal] at h

theorem scalar_case {kvs : List (String × Json)} {k : String} {p2 : Json} :
    (∃ v, some ((lookupJ kvs k).getD .null) = some v ∧
      droppedVal v = false ∧ p2 = canon v) ↔
    (∃ v, lookupJ kvs k = some v ∧ droppedVal v = false ∧ p2 = canon v) := by
  rcases h : lookupJ kvs k with _ | w
  · constructor
    · rintro ⟨v, hv, hdv, _⟩
      injection hv with hv'
      rw [← hv'] at hdv
      simp [droppedVal] at hdv
    · rintro ⟨v, hv, _, _⟩
      simp at hv
  · simp

theorem ns_case {kvs : List (String × Json)} {k : String} {p2 : Json} :
    (∃ v, some ((lookupJ kvs k).getD (.arr [])) = some v ∧
      droppedVal v = false ∧ p2 = canon v) ↔
    (∃ v, lookupJ kvs k = some v ∧ droppedVal v = false ∧ p2 = canon v) := by
  rcases h : lookupJ kvs k with _ | w
  · constructor
    · rintro ⟨v, hv, hdv, _⟩
      injection hv with hv'
      rw [← hv'] at hdv
      simp [droppedVal] at hdv
    · rintro ⟨v, hv, _, _⟩
      simp at hv
  · simp

theorem coll_case {kvs : List (String × Json)} {k : String}
    {q : Json → Bool} {outEl : Json → Json}
    (hc : collOk kvs k q = true)
    (hcanon : ∀ el ∈ getColl kvs k, canon (outEl el) = canon el)
    {p2 : Json} :
    (∃ v, some (Json.arr ((getColl kvs k).map outEl)) = some v ∧
      droppedVal v = false ∧ p2 = canon v) ↔
    (∃ v, lookupJ kvs k = some v ∧ droppedVal v = false ∧ p2 = canon v) := by
  have hmapc : canon (.arr ((getColl kvs k).map outEl)) =
      canon (.arr (getColl kvs k)) := by
    rw [show canon (Json.arr ((getColl kvs k).map outEl)) =
        .arr (canonL ((getColl kvs k).map outEl)) from rfl]
    rw [show canon (Json.arr (getColl kvs k)) =
        .arr (canonL (getColl kvs k)) from rfl]
    rw [canonL_map, canonL_map, List.map_map]
    exact congrArg Json.arr (List.map_congr_left (fun a ha => hcanon a ha))
  rcases h : lookupJ kvs k with _ | w
  · have hg : getColl kvs k = [] := by
      unfold getColl
      rw [h]
    rw [hg]
    constructor
    · rintro ⟨v, hv, hdv, _⟩
      injection hv with hv'
      rw [← hv'] at hdv
      simp [droppedVal] at hdv
    · rintro ⟨v, hv, _, _⟩
      simp at hv
  · have hw : w = .arr (getColl kvs k) := (collOk_val hc).2.2 w h
    constructor
    · rintro ⟨v, hv, hdv, hcv⟩
      injection hv with hv'
      rw [← hv'] at hdv hcv
      have hne : getColl kvs k ≠ [] := by
        intro he
        rw [he] at hdv
        simp [droppedVal] at hdv
      refine ⟨w, rfl, ?_, ?_⟩
      · rw [hw]
        exact droppedVal_arr_false hne
      · rw [hcv, hw, hmapc]
    · rintro ⟨v, hv, hdv, hcv⟩
      injection hv with hv'
      rw [← hv', hw] at hdv hcv
      have hne := droppedVal_arr_ne hdv
      refine ⟨.arr ((getColl kvs k).map outEl), rfl, ?_, ?_⟩
      · apply droppedVal_arr_false
        intro he
        exact hne (by simpa using he)
      · rw [hcv, hmapc]

theorem canon_roundtrip {kvs : List (String × Json)}
    (h : validNative (.obj kvs) = true) :
    canonDoc (.obj ((out0 kvs).filter (fun kv => !droppedVal kv.2))) =
    canonDoc (.obj kvs) := by
  have hvc := h
  simp only [validNative, Bool.and_eq_true] at hvc
  obtain ⟨⟨⟨⟨hnd, hamong⟩, hcd⟩, hcr⟩, hcm⟩ := hvc
  have hndkvs : (kvs.map Prod.fst).Nodup := nodupKeysB_iff.mp hnd
  have hnd_out : ((out0 kvs).map Prod.fst).Nodup := by
    rw [show (out0 kvs).map Prod.fst =
      ["target", "text", "sourcedb", "sourceid", "divid", "project",
       "namespaces", "denotations", "relations", "modifications"] from rfl]
    decide
  simp only [canonDoc]
  rw [List.filter_filter]
  simp only [Bool.and_self]
  rw [show canon (Json.obj ((out0 kvs).filter fun kv => !droppedVal kv.2)) =
      Json.obj (sortKvs (canonK
        ((out0 kvs).filter fun kv => !droppedVal kv.2))) from rfl]
  rw [show canon (Json.obj (kvs.filter fun kv => !droppedVal kv.2)) =
      Json.obj (sortKvs (canonK
        (kvs.filter fun kv => !droppedVal kv.2))) from rfl]
  congr 1
  rw [canonK_map, canonK_map]
  have hk1 : ((((out0 kvs).filter fun kv => !droppedVal kv.2).map
      (fun kv => (kv.1, canon kv.2))).map Prod.fst).Nodup := by
    rw [map_fst_cp]
    exact List.Sublist.nodup
      (List.Sublist.map _ (List.filter_sublist _)) hnd_out
  have hk2 : (((kvs.filter fun kv => !droppedVal kv.2).map
      (fun kv => (kv.1, canon kv.2))).map Prod.fst).Nodup := by
    rw [map_fst_cp]
    exact List.Sublist.nodup
      (List.Sublist.map _ (List.filter_sublist _)) hndkvs
  apply sortKvs_eq_of_perm
  · apply (List.perm_ext_iff_of_nodup (List.Nodup.of_map _ hk1)
      (List.Nodup.of_map _ hk2)).mpr
    intro p
    rw [mem_filter_canon hnd_out p, mem_filter_canon hndkvs p]
    constructor
    · rintro ⟨v, hlk, hdv, hcv⟩
      have hmem := lookupJ_mem hlk
      simp only [out0, List.mem_cons, List.not_mem_nil, or_false] at hmem
      rcases hmem with h1 | h1 | h1 | h1 | h1 | h1 | h1 | h1 | h1 | h1 <;>
        rw [Prod.mk.injEq] at h1
      · rw [h1.1]
        exact scalar_case.mp ⟨v, by rw [h1.2], hdv, hcv⟩
      · rw [h1.1]
        exact scalar_case.mp ⟨v, by rw [h1.2], hdv, hcv⟩
      · rw [h1.1]
        exact scalar_case.mp ⟨v, by rw [h1.2], hdv, hcv⟩
      · rw [h1.1]
        exact scalar_case.mp ⟨v, by rw [h1.2], hdv, hcv⟩
      · rw [h1.1]
        exact scalar_case.mp ⟨v, by rw [h1.2], hdv, hcv⟩
      · rw [h1.1]
        exact scalar_case.mp ⟨v, by rw [h1.2], hdv, hcv⟩
      · rw [h1.1]
        exact ns_case.mp ⟨v, by rw [h1.2], hdv, hcv⟩
      · rw [h1.1]
        exact (coll_case hcd (fun el hel =>
          canon_denOutEl ((collOk_val hcd).2.1 el hel))).mp
          ⟨v, by rw [h1.2], hdv, hcv⟩
      · rw [h1.1]
        exact (coll_case hcr (fun el hel =>
          canon_relOutEl ((collOk_val hcr).2.1 el hel))).mp
          ⟨v, by rw [h1.2], hdv, hcv⟩
      · rw [h1.1]
        exact (coll_case hcm (fun el hel =>
          canon_modOutEl ((collOk_val hcm).2.1 el hel))).mp
          ⟨v, by rw [h1.2], hdv, hcv⟩
    · rintro ⟨v, hlk, hdv, hcv⟩
      have hmem := lookupJ_mem hlk
      have hcont := List.all_eq_true.mp hamong _ hmem
      simp only [tenKeys] at hcont
      have hkey : p.1 = "target" ∨ p.1 = "text" ∨ p.1 = "sourcedb" ∨
          p.1 = "sourceid" ∨ p.1 = "divid" ∨ p.1 = "project" ∨
          p.1 = "namespaces" ∨ p.1 = "denotations" ∨ p.1 = "relations" ∨
          p.1 = "modifications" := by
        simpa using hcont
      rcases hkey with h1 | h1 | h1 | h1 | h1 | h1 | h1 | h1 | h1 | h1 <;>
        rw [h1] at hlk ⊢
      · exact scalar_case.mpr ⟨v, hlk, hdv, hcv⟩
      · exact scalar_case.mpr ⟨v, hlk, hdv, hcv⟩
      · exact scalar_case.mpr ⟨v, hlk, hdv, hcv⟩
      · exact scalar_case.mpr ⟨v, hlk, hdv, hcv⟩
      · exact scalar_case.mpr ⟨v, hlk, hdv, hcv⟩
      · exact scalar_case.mpr ⟨v, hlk, hdv, hcv⟩
      · exact ns_case.mpr ⟨v, hlk, hdv, hcv⟩
      · exact (coll_case hcd (fun el hel =>
          canon_denOutEl ((collOk_val hcd).2.1 el hel))).mpr
          ⟨v, hlk, hdv, hcv⟩
      · exact (coll_case hcr (fun el hel =>
          canon_relOutEl ((collOk_val hcr).2.1 el hel))).mpr
          ⟨v, hlk, hdv, hcv⟩
      · exact (coll_case hcm (fun el hel =>
          canon_modOutEl ((collOk_val hcm).2.1 el hel))).mpr
          ⟨v, hlk, hdv, hcv⟩
  · exact hk1

/-- C1: parsing a valid native-JSON document with `from_json` and
re-emitting it with `to_json` yields a mapping canonically equal to the
input (sorted-key, top-level empty-field-dropped comparison). -/
theorem c1_native_roundtrip (D : Json) (h : validNative D = true) :
    ∃ A out, AnnDoc.from_json D = .ok A ∧ A.to_json = .ok out ∧
      canonDoc out = canonDoc D := by
  rcases D with _ | b | n | s | xs | kvs
  case obj =>
    exact ⟨docOf kvs, _, from_json_valid h, to_json_docOf h,
      canon_roundtrip h⟩
  all_goals simp [validNative] at h

/-- Witness for C1 at `exDoc`. -/
theorem c1_witness :
    ∃ A out, AnnDoc.from_json exDoc = .ok A ∧ A.to_json = .ok out ∧
      canonDoc out = canonDoc exDoc :=
  c1_native_roundtrip exDoc (by decide)

theorem mapM_forall2 {α β : Type} {f : α → Except PyErr β}
    {R : α → β → Prop} :
    ∀ {l : List α}, (∀ x ∈ l, ∃ y, f x = .ok y ∧ R x y) →
    ∃ ys, l.mapM f = .ok ys ∧ List.Forall₂ R l ys := by
  intro l
  induction l with
  | nil =>
    intro _
    exact ⟨[], rfl, List.Forall₂.nil⟩
  | cons x xs ih =>
    intro h
    obtain ⟨y, hy, hR⟩ := h x (List.mem_cons_self x xs)
    obtain ⟨ys, hys, hRs⟩ := ih (fun z hz => h z (List.mem_cons_of_mem _ hz))
    exact ⟨y :: ys, by
      rw [List.mapM_cons, hy, ebind_ok, hys, ebind_ok, epure],
      List.Forall₂.cons hR hRs⟩

theorem mapM_append_ok {α β : Type} {f : α → Except PyErr β}
    {l₁ l₂ : List α} {ys₁ ys₂ : List β} (h₁ : l₁.mapM f = .ok ys₁)
    (h₂ : l₂.mapM f = .ok ys₂) : (l₁ ++ l₂).mapM f = .ok (ys₁ ++ ys₂) := by
  induction l₁ generalizing ys₁ with
  | nil =>
    rw [show l₂.mapM f = ([] ++ l₂).mapM f from rfl] at h₂
    injection h₁ with h'
    rw [← h']
    simpa using h₂
  | cons x xs ih =>
    rw [List.mapM_cons] at h₁
    rcases hx : f x with e | y <;> rw [hx] at h₁
    · rw [ebind_err] at h₁
      simp at h₁
    · rw [ebind_ok] at h₁
      rcases hxs : xs.mapM f with e | ys <;> rw [hxs] at h₁
      · rw [ebind_err] at h₁
        simp at h₁
      · rw [ebind_ok, epure] at h₁
        injection h₁ with h'
        rw [← h']
        rw [List.cons_append, List.mapM_cons, hx, ebind_ok, ih hxs,
          ebind_ok, epure, List.cons_append]

theorem mapM_of_forall2_fun {α α' β : Type} {g : β → Except PyErr α'}
    {fj : α → α'} : ∀ {l : List α} {ys : List β},
    List.Forall₂ (fun x y => g y = .ok (fj x)) l ys →
    ys.mapM g = .ok (l.map fj) := by
  intro l ys h
  induction h with
  | nil => rfl
  | cons h1 _ ih =>
    rw [List.mapM_cons, h1, ebind_ok, ih, ebind_ok, epure, List.map_cons]

theorem filterByType_all {ty : String} : ∀ {l : List Json},
    (∀ x ∈ l, jIndex x "@type" = .ok (.str ty)) →
    filterByType ty l = .ok l := by
  intro l
  induction l with
  | nil =>
    intro _
    rfl
  | cons x xs ih =>
    intro h
    unfold filterByType
    rw [h x (List.mem_cons_self x xs), ebind_ok,
      ih (fun z hz => h z (List.mem_cons_of_mem _ hz)), ebind_ok, epure]
    rw [if_pos (beqJ_iff.mpr rfl)]

theorem filterByType_none {ty : String} : ∀ {l : List Json},
    (∀ x ∈ l, ∃ t, jIndex x "@type" = .ok t ∧ t ≠ .str ty) →
    filterByType ty l = .ok [] := by
  intro l
  induction l with
  | nil =>
    intro _
    rfl
  | cons x xs ih =>
    intro h
    obtain ⟨t, ht, hne⟩ := h x (List.mem_cons_self x xs)
    unfold filterByType
    rw [ht, ebind_ok, ih (fun z hz => h z (List.mem_cons_of_mem _ hz)),
      ebind_ok, epure]
    rw [if_neg (fun hb => hne (beqJ_iff.mp hb))]

theorem filterByType_append {ty : String} {l₁ l₂ : List Json}
    {r₁ r₂ : List Json} (h₁ : filterByType ty l₁ = .ok r₁)
    (h₂ : filterByType ty l₂ = .ok r₂) :
    filterByType ty (l₁ ++ l₂) = .ok (r₁ ++ r₂) := by
  induction l₁ generalizing r₁ with
  | nil =>
    injection h₁ with h'
    rw [← h']
    simpa using h₂
  | cons x xs ih =>
    rw [List.cons_append]
    unfold filterByType at h₁ ⊢
    rcases ht : jIndex x "@type" with e | t <;> rw [ht] at h₁
    · rw [ebind_err] at h₁
      simp at h₁
    · rw [ebind_ok] at h₁
      rcases hxs : filterByType ty xs with e | tail <;> rw [hxs] at h₁
      · rw [ebind_err] at h₁
        simp at h₁
      · rw [ebind_ok, epure] at h₁
        injection h₁ with h'
        rw [ebind_ok, ih hxs, ebind_ok, epure]
        rw [← h']
        by_cases hb : beqJ t (Json.str ty)
        · rw [if_pos hb, if_pos hb]
          simp
        · rw [if_neg hb, if_neg hb]

theorem pyFormatD_nonneg {b : Int} (hb : 0 ≤ b) :
    pyFormatD b = natDigits b.toNat := by
  unfold pyFormatD
  rw [if_neg (by omega)]

theorem wrapSpan_nums {b e : Int} (hb : 0 ≤ b) (he : 0 ≤ e) :
    wrapSpan (Json.num b, Json.num e) =
    .ok (String.mk ("span:".data ++ natDigits b.toNat ++ [','] ++
      natDigits e.toNat)) := by
  unfold wrapSpan
  rw [show pyD (Json.num b) = .ok (pyFormatD b) from rfl, ebind_ok]
  rw [show pyD (Json.num e) = .ok (pyFormatD e) from rfl, ebind_ok, epure]
  rw [pyFormatD_nonneg hb, pyFormatD_nonneg he]

theorem den_target {i o : Json} {b e : Int} (hb : 0 ≤ b) (he : 0 ≤ e) :
    (Ann.den i (.num b) (.num e) o).target =
    .ok (.str (String.mk ("span:".data ++ natDigits b.toNat ++ [','] ++
      natDigits e.toNat))) := by
  unfold Ann.target
  rw [show (Ann.den i (.num b) (.num e) o).spans =
      .ok [(Json.num b, Json.num e)] from rfl, ebind_ok]
  rw [show (match [((Json.num b : Json), (Json.num e : Json))] with
      | [s] => do
        let w ← wrapSpan s
        pure (Json.str w)
      | _ => do
        let ws ← [((Json.num b : Json), (Json.num e : Json))].mapM wrapSpan
        pure (Json.arr (ws.map Json.str)) : Except PyErr Json) =
      (do
        let w ← wrapSpan ((Json.num b : Json), (Json.num e : Json))
        pure (Json.str w)) from rfl]
  rw [wrapSpan_nums hb he, ebind_ok, epure]

theorem den_ld_roundtrip {i o : Json} {b e : Int} (hb : 0 ≤ b) (he : 0 ≤ e) :
    ∃ ld, (Ann.den i (.num b) (.num e) o).to_jsonld = .ok ld ∧
      jIndex ld "@type" = .ok (.str "pa:Denotation") ∧
      denFromJsonld ld = .ok (.den i (.num b) (.num e) o) := by
  refine ⟨.obj [("@id", i), ("@type", .str "pa:Denotation"),
    ("hasTarget", .str (String.mk ("span:".data ++ natDigits b.toNat ++
      [','] ++ natDigits e.toNat))), ("label", o)], ?_, ?_, ?_⟩
  · rw [show (Ann.den i (.num b) (.num e) o).to_jsonld =
        (do
          let t ← (Ann.den i (.num b) (.num e) o).target
          pure (Json.obj [("@id", i), ("@type", .str "pa:Denotation"),
            ("hasTarget", t), ("label", o)])) from rfl]
    rw [den_target hb he, ebind_ok, epure]
  · rfl
  · unfold denFromJsonld
    rw [show jIndex (Json.obj [("@id", i), ("@type", .str "pa:Denotation"),
        ("hasTarget", .str (String.mk ("span:".data ++ natDigits b.toNat ++
          [','] ++ natDigits e.toNat))), ("label", o)]) "hasTarget" =
        .ok (.str (String.mk ("span:".data ++ natDigits b.toNat ++ [','] ++
          natDigits e.toNat))) from rfl, ebind_ok]
    rw [show (match Json.str (String.mk ("span:".data ++
        natDigits b.toNat ++ [','] ++ natDigits e.toNat)) with
        | .str s => .ok s
        | _ => .error .typeError : Except PyErr String) =
        .ok (String.mk ("span:".data ++ natDigits b.toNat ++ [','] ++
          natDigits e.toNat)) from rfl, ebind_ok]
    rw [parseSpan_roundtrip b.toNat e.toNat]
    rw [show (match some (b.toNat, e.toNat) with
        | some p => .ok p
        | none => .error .attributeError : Except PyErr (Nat × Nat)) =
        .ok (b.toNat, e.toNat) from rfl, ebind_ok]
    rw [show jGetN (Json.obj [("@id", i), ("@type", .str "pa:Denotation"),
        ("hasTarget", .str (String.mk ("span:".data ++ natDigits b.toNat ++
          [','] ++ natDigits e.toNat))), ("label", o)]) "@id" =
        .ok i from rfl, ebind_ok]
    rw [show jGetN (Json.obj [("@id", i), ("@type", .str "pa:Denotation"),
        ("hasTarget", .str (String.mk ("span:".data ++ natDigits b.toNat ++
          [','] ++ natDigits e.toNat))), ("label", o)]) "label" =
        .ok o from rfl, ebind_ok, epure]
    simp [Int.toNat_of_nonneg hb, Int.toNat_of_nonneg he]

theorem rel_target {i p si so oi oo : Json} {b1 e1 b2 e2 : Int}
    (hb1 : 0 ≤ b1) (he1 : 0 ≤ e1) (hb2 : 0 ≤ b2) (he2 : 0 ≤ e2) :
    (Ann.rel i (.annRef (.den si (.num b1) (.num e1) so)) p
      (.annRef (.den oi (.num b2) (.num e2) oo))).target =
    .ok (.arr [.str (String.mk ("span:".data ++ natDigits b1.toNat ++
      [','] ++ natDigits e1.toNat)),
      .str (String.mk ("span:".data ++ natDigits b2.toNat ++ [','] ++
      natDigits e2.toNat))]) := by
  unfold Ann.target
  rw [show (Ann.rel i (.annRef (.den si (.num b1) (.num e1) so)) p
      (.annRef (.den oi (.num b2) (.num e2) oo))).spans =
      .ok [(Json.num b1, Json.num e1), (Json.num b2, Json.num e2)]
      from rfl, ebind_ok]
  rw [show (match [((Json.num b1 : Json), (Json.num e1 : Json)),
      ((Json.num b2 : Json), (Json.num e2 : Json))] with
      | [s] => do
        let w ← wrapSpan s
        pure (Json.str w)
      | _ => do
        let ws ← [((Json.num b1 : Json), (Json.num e1 : Json)),
          ((Json.num b2 : Json), (Json.num e2 : Json))].mapM wrapSpan
        pure (Json.arr (ws.map Json.str)) : Except PyErr Json) =
      (do
        let ws ← [((Json.num b1 : Json), (Json.num e1 : Json)),
          ((Json.num b2 : Json), (Json.num e2 : Json))].mapM wrapSpan
        pure (Json.arr (ws.map Json.str))) from rfl]
  rw [List.mapM_cons, wrapSpan_nums hb1 he1, ebind_ok, List.mapM_cons,
    wrapSpan_nums hb2 he2]
  rfl

theorem rel_ld_roundtrip {i p si so oi oo : Json} {b1 e1 b2 e2 : Int}
    (hb1 : 0 ≤ b1) (he1 : 0 ≤ e1) (hb2 : 0 ≤ b2) (he2 : 0 ≤ e2) :
    ∃ ld, (Ann.rel i (.annRef (.den si (.num b1) (.num e1) so)) p
      (.annRef (.den oi (.num b2) (.num e2) oo))).to_jsonld = .ok ld ∧
      jIndex ld "@type" = .ok (.str "pa:Relation") ∧
      relFromJsonld ld = .ok (.rel i (.idRef si) p (.idRef oi)) := by
  refine ⟨.obj [("@id", i), ("@type", .str "pa:Relation"),
    ("hasTarget", .arr [.str (String.mk ("span:".data ++
      natDigits b1.toNat ++ [','] ++ natDigits e1.toNat)),
      .str (String.mk ("span:".data ++ natDigits b2.toNat ++ [','] ++
      natDigits e2.toNat))]),
    ("hasBody", .obj [("pa:Subject", si), ("pa:Predicate", p),
      ("pa:Object", oi)])], ?_, ?_, ?_⟩
  · rw [show (Ann.rel i (.annRef (.den si (.num b1) (.num e1) so)) p
        (.annRef (.den oi (.num b2) (.num e2) oo))).to_jsonld =
        (do
          let t ← (Ann.rel i (.annRef (.den si (.num b1) (.num e1) so)) p
            (.annRef (.den oi (.num b2) (.num e2) oo))).target
          let sidv ← refId (.annRef (.den si (.num b1) (.num e1) so))
          let oidv ← refId (.annRef (.den oi (.num b2) (.num e2) oo))
          pure (Json.obj [("@id", i), ("@type", .str "pa:Relation"),
            ("hasTarget", t),
            ("hasBody", .obj [("pa:Subject", sidv), ("pa:Predicate", p),
              ("pa:Object", oidv)])])) from rfl]
    rw [rel_target hb1 he1 hb2 he2, ebind_ok]
    rw [show refId (.annRef (.den si (.num b1) (.num e1) so)) = .ok si
        from rfl, ebind_ok]
    rw [show refId (.annRef (.den oi (.num b2) (.num e2) oo)) = .ok oi
        from rfl, ebind_ok, epure]
  · rfl
  · rfl

theorem mod_target {i p oi oo : Json} {b2 e2 : Int}
    (hb2 : 0 ≤ b2) (he2 : 0 ≤ e2) :
    (Ann.mod i p (.annRef (.den oi (.num b2) (.num e2) oo))).target =
    .ok (.str (String.mk ("span:".data ++ natDigits b2.toNat ++ [','] ++
      natDigits e2.toNat))) := by
  unfold Ann.target
  rw [show (Ann.mod i p (.annRef (.den oi (.num b2) (.num e2) oo))).spans =
      .ok [(Json.num b2, Json.num e2)] from rfl, ebind_ok]
  rw [show (match [((Json.num b2 : Json), (Json.num e2 : Json))] with
      | [s] => do
        let w ← wrapSpan s
        pure (Json.str w)
      | _ => do
        let ws ← [((Json.num b2 : Json), (Json.num e2 : Json))].mapM wrapSpan
        pure (Json.arr (ws.map Json.str)) : Except PyErr Json) =
      (do
        let w ← wrapSpan ((Json.num b2 : Json), (Json.num e2 : Json))
        pure (Json.str w)) from rfl]
  rw [wrapSpan_nums hb2 he2, ebind_ok, epure]

theorem mod_ld_roundtrip {i p oi oo : Json} {b2 e2 : Int}
    (hb2 : 0 ≤ b2) (he2 : 0 ≤ e2) :
    ∃ ld, (Ann.mod i p (.annRef (.den oi (.num b2) (.num e2) oo))).to_jsonld
        = .ok ld ∧
      jIndex ld "@type" = .ok (.str "pa:Modification") ∧
      modFromJsonld ld = .ok (.mod i p (.idRef oi)) := by
  refine ⟨.obj [("@id", i), ("@type", .str "pa:Modification"),
    ("hasTarget", .str (String.mk ("span:".data ++ natDigits b2.toNat ++
      [','] ++ natDigits e2.toNat))),
    ("hasBody", .obj [("pa:Predicate", p), ("pa:Object", oi)])], ?_, ?_, ?_⟩
  · rw [show (Ann.mod i p
        (.annRef (.den oi (.num b2) (.num e2) oo))).to_jsonld =
        (do
          let t ← (Ann.mod i p
            (.annRef (.den oi (.num b2) (.num e2) oo))).target
          let oidv ← refId (.annRef (.den oi (.num b2) (.num e2) oo))
          pure (Json.obj [("@id", i), ("@type", .str "pa:Modification"),
            ("hasTarget", t),
            ("hasBody", .obj [("pa:Predicate", p),
              ("pa:Object", oidv)])])) from rfl]
    rw [mod_target hb2 he2, ebind_ok]
    rw [show refId (.annRef (.den oi (.num b2) (.num e2) oo)) = .ok oi
        from rfl, ebind_ok, epure]
  · rfl
  · rfl

theorem elId_eq_refField (el : Json) : elId el = refField el "id" := by
  cases el <;> rfl

theorem forall2_right {α β : Type} {R : α → β → Prop} :
    ∀ {l : List α} {l2 : List β}, List.Forall₂ R l l2 →
    ∀ y ∈ l2, ∃ x ∈ l, R x y := by
  intro l l2 h
  induction h with
  | nil => simp
  | cons h1 _ ih =>
    intro y hy
    rcases List.mem_cons.mp hy with h2 | h2
    · exact ⟨_, List.mem_cons_self _ _, h2 ▸ h1⟩
    · obtain ⟨x, hx, hR⟩ := ih y h2
      exact ⟨x, List.mem_cons_of_mem _ hx, hR⟩

theorem forall2_same {α : Type} {R : α → α → Prop} {l : List α}
    (h : ∀ x ∈ l, R x x) : List.Forall₂ R l l := by
  induction l with
  | nil => exact List.Forall₂.nil
  | cons x xs ih =>
    exact List.Forall₂.cons (h x (List.mem_cons_self x xs))
      (ih (fun z hz => h z (List.mem_cons_of_mem _ hz)))

theorem noSlashNl_of_digs {l : List Char} (h : l.all isDig = true) :
    l.all (fun c => c ≠ '/' && c ≠ '\n') = true := by
  rw [List.all_eq_true] at h ⊢
  intro c hc
  obtain ⟨_, h2, h3, _⟩ := isDig_excl (h c hc)
  simp [h2, h3]

theorem noSlashNl_pyFormatD (n : Int) :
    noSlashNl (String.mk (pyFormatD n)) = true := by
  have hall : ∀ m : Nat,
      (natDigits m).all (fun c => c ≠ '/' && c ≠ '\n') = true :=
    fun m => noSlashNl_of_digs (natDigits_spec m).2.1
  unfold noSlashNl
  rw [show (String.mk (pyFormatD n)).data = pyFormatD n from rfl]
  unfold pyFormatD
  by_cases hn : n < 0
  · rw [if_pos hn, List.all_cons, hall]
    decide
  · rw [if_neg hn]
    exact hall _

theorem parse_base_url_null {A : AnnDoc} {pj sd si : String}
    (hpj : A.project = .str pj) (hsd : A.sourcedb = .str sd)
    (hsi : A.sourceid = .str si) (hdv : A.divid = .null)
    (hp : noSlashNl pj = true) (hs : noSlashNl sd = true)
    (hx : noSlashNl si = true) :
    parse_base A.base_url = some (pj, sd, si, none) := by
  have hurl : A.base_url = "http://pubannotation.org/projects/" ++ pj ++
      "/docs/sourcedb/" ++ sd ++ "/sourceid/" ++ si ++ "/" := by
    unfold AnnDoc.base_url
    rw [hdv, hpj, hsd, hsi]
    simp [pyStr]
  rw [hurl]
  have h := parse_base_roundtrip pj sd si none hp hs hx
    (by intro s h; cases h)
  rw [show ("http://pubannotation.org/projects/" ++ pj ++
      "/docs/sourcedb/" ++ sd ++ "/sourceid/" ++ si ++ "/" : String) =
      ("http://pubannotation.org/projects/" ++ pj ++
      "/docs/sourcedb/" ++ sd ++ "/sourceid/" ++ si ++ "/" ++
      (match (none : Option String) with
       | some d => "divs/" ++ d ++ "/"
       | none => "") : String) from by
    apply str_eq_of_data
    simp [String.data_append]]
  exact h

theorem parse_base_url_num {A : AnnDoc} {pj sd si : String} {n : Int}
    (hpj : A.project = .str pj) (hsd : A.sourcedb = .str sd)
    (hsi : A.sourceid = .str si) (hdv : A.divid = .num n)
    (hp : noSlashNl pj = true) (hs : noSlashNl sd = true)
    (hx : noSlashNl si = true) :
    parse_base A.base_url =
      some (pj, sd, si, some (String.mk (pyFormatD n))) := by
  have hurl : A.base_url = "http://pubannotation.org/projects/" ++ pj ++
      "/docs/sourcedb/" ++ sd ++ "/sourceid/" ++ si ++ "/divs/" ++
      String.mk (pyFormatD n) ++ "/" := by
    unfold AnnDoc.base_url
    rw [hdv, hpj, hsd, hsi]
    apply str_eq_of_data
    simp [pyStr, String.data_append]
  rw [hurl]
  have h := parse_base_roundtrip pj sd si (some (String.mk (pyFormatD n)))
    hp hs hx
    (by
      intro s hse
      injection hse with h2
      rw [← h2]
      exact noSlashNl_pyFormatD n)
  rw [show ("http://pubannotation.org/projects/" ++ pj ++
      "/docs/sourcedb/" ++ sd ++ "/sourceid/" ++ si ++ "/divs/" ++
      String.mk (pyFormatD n) ++ "/" : String) =
      ("http://pubannotation.org/projects/" ++ pj ++
      "/docs/sourcedb/" ++ sd ++ "/sourceid/" ++ si ++ "/" ++
      (match (some (String.mk (pyFormatD n)) : Option String) with
       | some d => "divs/" ++ d ++ "/"
       | none => "") : String) from by
    apply str_eq_of_data
    simp [String.data_append]]
  exact h

theorem validRel_fields {el : Json} (h : validRel el = true) :
    ∃ ss os : String,
      refField el "subj" = .str ss ∧ refField el "obj" = .str os := by
  rcases el with _ | b | n | s | xs | d
  case obj =>
    simp only [validRel, Bool.and_eq_true] at h
    obtain ⟨_, hm⟩ := h
    split at hm
    · rename_i sv ov hs ho
      simp only [Bool.and_eq_true] at hm
      cases sv <;> simp [isStrJ] at hm
      cases ov <;> simp [isStrJ] at hm
      rename_i ss os
      exact ⟨ss, os, by simp [refField, hs], by simp [refField, ho]⟩
    · exact absurd hm (by simp)
  all_goals simp [validRel] at h

theorem validMod_fields {el : Json} (h : validMod el = true) :
    ∃ os : String, refField el "obj" = .str os := by
  rcases el with _ | b | n | s | xs | d
  case obj =>
    simp only [validMod, Bool.and_eq_true] at h
    obtain ⟨_, hm⟩ := h
    split at hm
    · rename_i ov ho
      cases ov <;> simp [isStrJ] at hm
      rename_i os
      exact ⟨os, by simp [refField, ho]⟩
    · exact absurd hm (by simp)
  all_goals simp [validMod] at h

theorem denOfEl_shape {el : Json} (hb : denBeginsOk el = true) :
    ∃ b e : Int, 0 ≤ b ∧ 0 ≤ e ∧
      denOfEl el = .den (elId el) (.num b) (.num e) (refField el "obj") := by
  rcases el with _ | bb | n | s | xs | d
  case obj =>
    simp only [denBeginsOk] at hb
    split at hb
    · rename_i s hs
      split at hb
      · rename_i b e hbg hed
        simp only [Bool.and_eq_true, decide_eq_true_eq] at hb
        refine ⟨b, e, hb.1, hb.2, ?_⟩
        unfold denOfEl spanOf
        rw [elId_eq_refField]
        simp [hs, refField, hbg, hed]
      · simp at hb
    · simp at hb
  all_goals simp [denBeginsOk] at hb

theorem annotations_ids {kvs : List (String × Json)} :
    (docOf kvs).annotations.map Ann.id =
      (getColl kvs "denotations").map elId ++
      (getColl kvs "relations").map elId ++
      (getColl kvs "modifications").map elId := by
  show ((getColl kvs "denotations").map denOfEl ++
      (getColl kvs "relations").map relOfEl ++
      (getColl kvs "modifications").map modOfEl).map Ann.id = _
  rw [List.map_append, List.map_append, List.map_map, List.map_map,
    List.map_map]
  have h1 : ∀ el ∈ getColl kvs "denotations",
      (Ann.id ∘ denOfEl) el = elId el := fun el _ =>
    (elId_eq_refField el).symm
  have h2 : ∀ el ∈ getColl kvs "relations",
      (Ann.id ∘ relOfEl) el = elId el := fun el _ =>
    (elId_eq_refField el).symm
  have h3 : ∀ el ∈ getColl kvs "modifications",
      (Ann.id ∘ modOfEl) el = elId el := fun el _ =>
    (elId_eq_refField el).symm
  rw [List.map_congr_left h1, List.map_congr_left h2, List.map_congr_left h3]

theorem validForLD_parts {kvs : List (String × Json)}
    (h : validForLD (.obj kvs) = true) :
    validNative (.obj kvs) = true ∧
    (∃ pj sd si : String,
      lookupJ kvs "project" = some (.str pj) ∧
      lookupJ kvs "sourcedb" = some (.str sd) ∧
      lookupJ kvs "sourceid" = some (.str si) ∧
      noSlashNl pj = true ∧ noSlashNl sd = true ∧ noSlashNl si = true ∧
      (((lookupJ kvs "divid").getD .null = .null ∧
        (lookupJ kvs "target").getD .null = .str (target_uri sd si none)) ∨
       (∃ n : Int, (lookupJ kvs "divid").getD .null = .num n ∧
        (lookupJ kvs "target").getD .null =
          .str (target_uri sd si (some (String.mk (pyFormatD n))))))) ∧
    (lookupJ kvs "namespaces").getD (.arr []) = .arr [] ∧
    nodupJB ((getColl kvs "denotations").map elId ++
      (getColl kvs "relations").map elId ++
      (getColl kvs "modifications").map elId) = true ∧
    (getColl kvs "denotations").all denBeginsOk = true ∧
    (getColl kvs "relations").all (fun el =>
      memJ ((getColl kvs "denotations").map elId) (refField el "subj") &&
      memJ ((getColl kvs "denotations").map elId) (refField el "obj")) = true ∧
    (getColl kvs "modifications").all (fun el =>
      memJ ((getColl kvs "denotations").map elId) (refField el "obj")) = true
    := by
  simp only [validForLD, Bool.and_eq_true] at h
  obtain ⟨h1, ⟨⟨⟨⟨h2, h3⟩, h4⟩, h5⟩, h6⟩, h7⟩ := h
  refine ⟨h1, ?_, ?_, h4, h5, h6, h7⟩
  · split at h2
    · rename_i pj sd si hpj hsd hsi
      simp only [Bool.and_eq_true] at h2
      obtain ⟨⟨⟨hp, hs⟩, hx⟩, hdv⟩ := h2
      refine ⟨pj, sd, si, hpj, hsd, hsi, hp, hs, hx, ?_⟩
      split at hdv
      · rename_i hnull
        left
        split at hdv
        · rename_i tv htv
          refine ⟨hnull, ?_⟩
          rw [htv]
          exact beqJ_iff.mp hdv
        · simp at hdv
      · rename_i n hnum
        right
        split at hdv
        · rename_i tv htv
          refine ⟨n, hnum, ?_⟩
          rw [htv]
          exact beqJ_iff.mp hdv
        · simp at hdv
      · simp at hdv
    · simp at h2
  · split at h3
    · rename_i hns
      rw [hns]
      rfl
    · rename_i hns
      rw [hns]
      rfl
    · simp at h3

theorem lookup_den {kvs : List (String × Json)}
    (hnd : ((docOf kvs).annotations.map Ann.id).Nodup)
    (hdb : (getColl kvs "denotations").all denBeginsOk = true)
    {ss : String}
    (hmem : memJ ((getColl kvs "denotations").map elId) (.str ss) = true) :
    ∃ (b e : Int) (o : Json), 0 ≤ b ∧ 0 ≤ e ∧
      resolveLookup ((docOf kvs).annotations.map (fun a => (a.id, a))) ss =
        .ok (.den (.str ss) (.num b) (.num e) o) := by
  have hin : (Json.str ss) ∈ (getColl kvs "denotations").map elId :=
    memJ_iff.mp hmem
  obtain ⟨del, hdel, hid⟩ := List.mem_map.mp hin
  have hbok : denBeginsOk del = true := List.all_eq_true.mp hdb del hdel
  obtain ⟨b, e, hb, he, hshape⟩ := denOfEl_shape hbok
  refine ⟨b, e, refField del "obj", hb, he, ?_⟩
  have hmemA : denOfEl del ∈ (docOf kvs).annotations := by
    refine List.mem_append.mpr (.inl (List.mem_append.mpr (.inl ?_)))
    show denOfEl del ∈ (getColl kvs "denotations").map denOfEl
    exact List.mem_map.mpr ⟨del, hdel, rfl⟩
  have hidv : (denOfEl del).id = Json.str ss := by
    rw [hshape]
    exact hid
  have hpair : ((Json.str ss), denOfEl del) ∈
      (docOf kvs).annotations.map (fun a => (a.id, a)) := by
    refine List.mem_map.mpr ⟨denOfEl del, hmemA, ?_⟩
    show ((denOfEl del).id, denOfEl del) = (Json.str ss, denOfEl del)
    rw [hidv]
  have hkeys : (((docOf kvs).annotations.map
      (fun a => (a.id, a))).map Prod.fst).Nodup := by
    rw [show ((docOf kvs).annotations.map (fun a => (a.id, a))).map Prod.fst =
        (docOf kvs).annotations.map Ann.id from by simp]
    exact hnd
  have hlook := mem_lookupJA hkeys hpair
  unfold resolveLookup
  rw [hlook, hshape, hid]

theorem rel_resolve_rt {kvs : List (String × Json)}
    (hnd : ((docOf kvs).annotations.map Ann.id).Nodup)
    (hdb : (getColl kvs "denotations").all denBeginsOk = true)
    {el : Json} (hv : validRel el = true)
    (hsub : memJ ((getColl kvs "denotations").map elId)
      (refField el "subj") = true)
    (hobj : memJ ((getColl kvs "denotations").map elId)
      (refField el "obj") = true) :
    ∃ r2, Ann.resolve_ids ((docOf kvs).annotations.map (fun a => (a.id, a)))
        (relOfEl el) = .ok r2 ∧
      ldRT relFromJsonld "pa:Relation" (relOfEl el) r2 := by
  obtain ⟨ss, os, hssf, hosf⟩ := validRel_fields hv
  rw [hssf] at hsub
  rw [hosf] at hobj
  obtain ⟨b1, e1, so, hb1, he1, hls⟩ := lookup_den hnd hdb hsub
  obtain ⟨b2, e2, oo, hb2, he2, hlo⟩ := lookup_den hnd hdb hobj
  refine ⟨Ann.rel (refField el "id")
      (.annRef (.den (.str ss) (.num b1) (.num e1) so)) (refField el "pred")
      (.annRef (.den (.str os) (.num b2) (.num e2) oo)), ?_, ?_⟩
  · show Ann.resolve_ids _ (Ann.rel (refField el "id")
        (.idRef (refField el "subj")) (refField el "pred")
        (.idRef (refField el "obj"))) = _
    rw [hssf, hosf]
    simp only [Ann.resolve_ids]
    rw [show refStr (.idRef (.str ss)) = .ok ss from rfl, ebind_ok]
    rw [show refStr (.idRef (.str os)) = .ok os from rfl, ebind_ok]
    rw [hls, ebind_ok, hlo, ebind_ok, epure]
  · obtain ⟨ld, h1, h2, h3⟩ := @rel_ld_roundtrip (refField el "id")
      (refField el "pred") (.str ss) so (.str os) oo b1 e1 b2 e2
      hb1 he1 hb2 he2
    refine ⟨ld, h1, h2, ?_⟩
    show relFromJsonld ld = .ok (Ann.rel (refField el "id")
      (.idRef (refField el "subj")) (refField el "pred")
      (.idRef (refField el "obj")))
    rw [hssf, hosf]
    exact h3

theorem mod_resolve_rt {kvs : List (String × Json)}
    (hnd : ((docOf kvs).annotations.map Ann.id).Nodup)
    (hdb : (getColl kvs "denotations").all denBeginsOk = true)
    {el : Json} (hv : validMod el = true)
    (hobj : memJ ((getColl kvs "denotations").map elId)
      (refField el "obj") = true) :
    ∃ r2, Ann.resolve_ids ((docOf kvs).annotations.map (fun a => (a.id, a)))
        (modOfEl el) = .ok r2 ∧
      ldRT modFromJsonld "pa:Modification" (modOfEl el) r2 := by
  obtain ⟨os, hosf⟩ := validMod_fields hv
  rw [hosf] at hobj
  obtain ⟨b2, e2, oo, hb2, he2, hlo⟩ := lookup_den hnd hdb hobj
  refine ⟨Ann.mod (refField el "id") (refField el "pred")
      (.annRef (.den (.str os) (.num b2) (.num e2) oo)), ?_, ?_⟩
  · show Ann.resolve_ids _ (Ann.mod (refField el "id") (refField el "pred")
        (.idRef (refField el "obj"))) = _
    rw [hosf]
    simp only [Ann.resolve_ids]
    rw [show refStr (.idRef (.str os)) = .ok os from rfl, ebind_ok]
    rw [hlo, ebind_ok, epure]
  · obtain ⟨ld, h1, h2, h3⟩ := @mod_ld_roundtrip (refField el "id")
      (refField el "pred") (.str os) oo b2 e2 hb2 he2
    refine ⟨ld, h1, h2, ?_⟩
    show modFromJsonld ld = .ok (Ann.mod (refField el "id")
      (refField el "pred") (.idRef (refField el "obj")))
    rw [hosf]
    exact h3

theorem resolve_docOf {kvs : List (String × Json)}
    (h : validForLD (.obj kvs) = true) :
    ∃ rs ms,
      (docOf kvs).resolve_ids = .ok
        { docOf kvs with
          relations := rs, modifications := ms, ids_resolved := true } ∧
      List.Forall₂ (ldRT relFromJsonld "pa:Relation")
        (docOf kvs).relations rs ∧
      List.Forall₂ (ldRT modFromJsonld "pa:Modification")
        (docOf kvs).modifications ms ∧
      (∀ d ∈ (docOf kvs).denotations,
        ldRT denFromJsonld "pa:Denotation" d d) := by
  obtain ⟨hvn, _, _, hnodup, hdb, hrall, hmall⟩ := validForLD_parts h
  have hnd : ((docOf kvs).annotations.map Ann.id).Nodup := by
    rw [annotations_ids]
    exact nodupJB_iff.mp hnodup
  have hm := get_ann_by_id_ok hnd
  simp only [validNative, Bool.and_eq_true] at hvn
  obtain ⟨⟨⟨⟨_, _⟩, hcd⟩, hcr⟩, hcm⟩ := hvn
  have hrv : ∀ el ∈ getColl kvs "relations", validRel el = true :=
    (collOk_val hcr).2.1
  have hmv : ∀ el ∈ getColl kvs "modifications", validMod el = true :=
    (collOk_val hcm).2.1
  have hrel : ∀ r ∈ (docOf kvs).relations, ∃ r2,
      Ann.resolve_ids ((docOf kvs).annotations.map (fun a => (a.id, a))) r =
        .ok r2 ∧ ldRT relFromJsonld "pa:Relation" r r2 := by
    intro r hr
    have hr2 : r ∈ (getColl kvs "relations").map relOfEl := hr
    obtain ⟨el, hel, hre⟩ := List.mem_map.mp hr2
    have hall := List.all_eq_true.mp hrall el hel
    simp only [Bool.and_eq_true] at hall
    rw [← hre]
    exact rel_resolve_rt hnd hdb (hrv el hel) hall.1 hall.2
  have hmod : ∀ r ∈ (docOf kvs).modifications, ∃ r2,
      Ann.resolve_ids ((docOf kvs).annotations.map (fun a => (a.id, a))) r =
        .ok r2 ∧ ldRT modFromJsonld "pa:Modification" r r2 := by
    intro r hr
    have hr2 : r ∈ (getColl kvs "modifications").map modOfEl := hr
    obtain ⟨el, hel, hre⟩ := List.mem_map.mp hr2
    have hall := List.all_eq_true.mp hmall el hel
    rw [← hre]
    exact mod_resolve_rt hnd hdb (hmv el hel) hall
  obtain ⟨rs, hrs, hF2r⟩ := mapM_forall2 hrel
  obtain ⟨ms, hms, hF2m⟩ := mapM_forall2 hmod
  have hdres : (docOf kvs).denotations.mapM
      (Ann.resolve_ids ((docOf kvs).annotations.map (fun a => (a.id, a)))) =
      .ok (docOf kvs).denotations := by
    have hfun : ∀ d ∈ (docOf kvs).denotations,
        Ann.resolve_ids ((docOf kvs).annotations.map (fun a => (a.id, a))) d =
        .ok (id d) := by
      intro d hd
      have hd2 : d ∈ (getColl kvs "denotations").map denOfEl := hd
      obtain ⟨el, _, hde⟩ := List.mem_map.mp hd2
      rw [← hde]
      rfl
    have := mapM_ok_fun
      (Ann.resolve_ids ((docOf kvs).annotations.map (fun a => (a.id, a)))) id
      (docOf kvs).denotations hfun
    simpa using this
  have hdld : ∀ d ∈ (docOf kvs).denotations,
      ldRT denFromJsonld "pa:Denotation" d d := by
    intro d hd
    have hd2 : d ∈ (getColl kvs "denotations").map denOfEl := hd
    obtain ⟨el, hel, hde⟩ := List.mem_map.mp hd2
    have hbok : denBeginsOk el = true := List.all_eq_true.mp hdb el hel
    obtain ⟨b, e, hb, he, hshape⟩ := denOfEl_shape hbok
    rw [← hde, hshape]
    exact den_ld_roundtrip hb he
  refine ⟨rs, ms, ?_, hF2r, hF2m, hdld⟩
  rw [show (docOf kvs).resolve_ids = (do
      let m ← (docOf kvs).get_ann_by_id
      let ds ← (docOf kvs).denotations.mapM (Ann.resolve_ids m)
      let rs2 ← (docOf kvs).relations.mapM (Ann.resolve_ids m)
      let ms2 ← (docOf kvs).modifications.mapM (Ann.resolve_ids m)
      return { docOf kvs with
               denotations := ds, relations := rs2, modifications := ms2,
               ids_resolved := true }) from rfl]
  rw [hm, ebind_ok, hdres, ebind_ok, hrs, ebind_ok, hms, ebind_ok, epure]

theorem ldRT_graph {fj : Json → Except PyErr Ann} {ty : String} :
    ∀ {l l2 : List Ann}, List.Forall₂ (ldRT fj ty) l l2 →
    ∃ g, l2.mapM Ann.to_jsonld = .ok g ∧
      (∀ x ∈ g, jIndex x "@type" = .ok (.str ty)) ∧
      g.mapM fj = .ok l := by
  intro l l2 h
  induction h with
  | nil => exact ⟨[], rfl, by simp, rfl⟩
  | cons h1 _ ih =>
    obtain ⟨ld, hld, hty, hfj⟩ := h1
    obtain ⟨g, hg, htys, hback⟩ := ih
    refine ⟨ld :: g, ?_, ?_, ?_⟩
    · rw [List.mapM_cons, hld, ebind_ok, hg, ebind_ok, epure]
    · intro x hx
      rcases List.mem_cons.mp hx with h2 | h2
      · rw [h2]
        exact hty
      · exact htys x h2
    · rw [List.mapM_cons, hfj, ebind_ok, hback, ebind_ok, epure]

theorem from_jsonld_obj {bs : String} (tx : Json) {gl : List Json}
    {pj sd si : String} {dvS : Option String} {dvj : Json}
    (hdv : (match dvS with
            | some dv => do
              let n ← pyInt dv
              return Json.num n
            | none => .ok Json.null : Except PyErr Json) = .ok dvj)
    (hb : parse_base bs = some (pj, sd, si, dvS))
    {dl rl ml : List Json}
    (hdl : filterByType "pa:Denotation" gl = .ok dl)
    (hrl : filterByType "pa:Relation" gl = .ok rl)
    (hml : filterByType "pa:Modification" gl = .ok ml)
    {ds rs ms : List Ann}
    (hds : dl.mapM denFromJsonld = .ok ds)
    (hrs : rl.mapM relFromJsonld = .ok rs)
    (hms : ml.mapM modFromJsonld = .ok ms) :
    AnnDoc.from_jsonld (.obj [("@context",
        .obj [("@base", .str bs), ("text", tx)]),
        ("@graph", .arr gl)]) =
    .ok { target := .str (target_uri sd si dvS), text := tx,
          project := .str pj, sourcedb := .str sd, sourceid := .str si,
          divid := dvj, denotations := ds, relations := rs,
          modifications := ms, namespaces := .arr [],
          ids_resolved := false } := by
  rw [show AnnDoc.from_jsonld (.obj [("@context",
        .obj [("@base", .str bs), ("text", tx)]), ("@graph", .arr gl)]) =
      (do
        let gr ← (match parse_base bs with
                  | some g => .ok g
                  | none => .error .malformedBaseUri :
                    Except PyErr (String × String × String × Option String))
        let (project, sourcedb, sourceid, dividS) := gr
        let divid ← (match dividS with
                     | some dv => do
                       let n ← pyInt dv
                       return Json.num n
                     | none => .ok Json.null : Except PyErr Json)
        let dl2 ← filterByType "pa:Denotation" gl
        let rl2 ← filterByType "pa:Relation" gl
        let ml2 ← filterByType "pa:Modification" gl
        let ds2 ← dl2.mapM denFromJsonld
        let rs2 ← rl2.mapM relFromJsonld
        let ms2 ← ml2.mapM modFromJsonld
        return { target := Json.str (target_uri sourcedb sourceid dividS),
                 text := tx, project := Json.str project,
                 sourcedb := Json.str sourcedb,
                 sourceid := Json.str sourceid,
                 divid := divid, denotations := ds2, relations := rs2,
                 modifications := ms2, namespaces := Json.arr [],
                 ids_resolved := false }) from rfl]
  rw [hb]
  rw [show ((match some (pj, sd, si, dvS) with
      | some g => .ok g
      | none => .error .malformedBaseUri :
        Except PyErr (String × String × String × Option String))) =
      .ok (pj, sd, si, dvS) from rfl]
  rw [ebind_ok]
  cases dvS with
  | none =>
    have h2 : Except.ok Json.null = Except.ok dvj := hdv
    injection h2 with h3
    subst h3
    show ((do
        let dl2 ← filterByType "pa:Denotation" gl
        let rl2 ← filterByType "pa:Relation" gl
        let ml2 ← filterByType "pa:Modification" gl
        let ds2 ← dl2.mapM denFromJsonld
        let rs2 ← rl2.mapM relFromJsonld
        let ms2 ← ml2.mapM modFromJsonld
        return { target := Json.str (target_uri sd si none),
                 text := tx,
                 project := Json.str pj,
                 sourcedb := Json.str sd,
                 sourceid := Json.str si,
                 divid := Json.null,
                 denotations := ds2,
                 relations := rs2,
                 modifications := ms2,
                 namespaces := Json.arr [],
                 ids_resolved := false } : Except PyErr AnnDoc)) =
      Except.ok { target := Json.str (target_uri sd si none),
                  text := tx,
                  project := Json.str pj,
                  sourcedb := Json.str sd,
                  sourceid := Json.str si,
                  divid := Json.null,
                  denotations := ds,
                  relations := rs,
                  modifications := ms,
                  namespaces := Json.arr [],
                  ids_resolved := false }
    rw [hdl, ebind_ok, hrl, ebind_ok, hml, ebind_ok,
      hds, ebind_ok, hrs, ebind_ok, hms, ebind_ok, epure]
  | some dv =>
    show ((do
        let divid ← (do
          let n ← pyInt dv
          return Json.num n : Except PyErr Json)
        let dl2 ← filterByType "pa:Denotation" gl
        let rl2 ← filterByType "pa:Relation" gl
        let ml2 ← filterByType "pa:Modification" gl
        let ds2 ← dl2.mapM denFromJsonld
        let rs2 ← rl2.mapM relFromJsonld
        let ms2 ← ml2.mapM modFromJsonld
        return { target := Json.str (target_uri sd si (some dv)),
                 text := tx,
                 project := Json.str pj,
                 sourcedb := Json.str sd,
                 sourceid := Json.str si,
                 divid := divid,
                 denotations := ds2,
                 relations := rs2,
                 modifications := ms2,
                 namespaces := Json.arr [],
                 ids_resolved := false } : Except PyErr AnnDoc)) =
      Except.ok { target := Json.str (target_uri sd si (some dv)),
                  text := tx,
                  project := Json.str pj,
                  sourcedb := Json.str sd,
                  sourceid := Json.str si,
                  divid := dvj,
                  denotations := ds,
                  relations := rs,
                  modifications := ms,
                  namespaces := Json.arr [],
                  ids_resolved := false }
    rw [show (do
        let n ← pyInt dv
        return Json.num n : Except PyErr Json) = Except.ok dvj from hdv]
    rw [ebind_ok, hdl, ebind_ok, hrl, ebind_ok, hml, ebind_ok,
      hds, ebind_ok, hrs, ebind_ok, hms, ebind_ok, epure]

theorem str_ne {s t : String} (h : s ≠ t) : (Json.str s : Json) ≠ .str t :=
  fun hc => h (by injection hc)

/-- C2 counterexample: `c2Doc` is a valid native document (`validNative`)
whose only relation reference resolves (to the denotation `T1`), yet the
two-format round trip does not re-emit a canonically equal document:
`from_jsonld` rebuilds `target` one-way from the `@base` components, so the
original `target` value `"foo"` comes back as the rebuilt URI and the two
native emissions differ canonically. -/
theorem c2_counterexample :
    validNative c2Doc = true ∧
    AnnDoc.from_json c2Doc = .ok c2A ∧
    c2A.resolve_ids = .ok c2ARes ∧
    c2A.to_jsonld = .ok c2Ld ∧
    AnnDoc.from_jsonld c2Ld = .ok c2A2 ∧
    c2A.to_json = .ok c2Out ∧
    c2A2.to_json = .ok c2Out2 ∧
    beqJ (canonDoc c2Out2) (canonDoc c2Out) = false :=
  ⟨by decide, rfl, rfl, rfl, rfl, rfl, rfl, by decide⟩

/-- C2 (amended): the JSON-LD round trip re-emits a canonically equal
native document on the canonical PubAnnotation shape (`validForLD`:
well-formed collections, references resolving to denotations,
non-negative integral offsets, URI-safe metadata strings, an integral or
absent `divid`, empty `namespaces`, and a `target` equal to the URI
`from_jsonld` rebuilds): parsing, emitting JSON-LD, re-parsing the
JSON-LD and re-emitting native JSON yields a canonically equal
document. -/
theorem c2_jsonld_roundtrip (D : Json) (h : validForLD D = true) :
    ∃ A j A2 out out2,
      AnnDoc.from_json D = .ok A ∧ A.to_jsonld = .ok j ∧
      AnnDoc.from_jsonld j = .ok A2 ∧
      A.to_json = .ok out ∧ A2.to_json = .ok out2 ∧
      canonDoc out2 = canonDoc out := by
  rcases D with _ | b | n | s | xs | kvs
  case obj =>
    obtain ⟨hvn, hmeta, hns, hnodup, hdb, hrall, hmall⟩ := validForLD_parts h
    obtain ⟨pj, sd, si, hpjL, hsdL, hsiL, hp, hs, hx, hdiv⟩ := hmeta
    obtain ⟨rs, ms, hres, hF2r, hF2m, hdld⟩ := resolve_docOf h
    obtain ⟨gd, hgd, hgdty, hgdback⟩ := ldRT_graph (forall2_same hdld)
    obtain ⟨gr, hgr, hgrty, hgrback⟩ := ldRT_graph hF2r
    obtain ⟨gm, hgm, hgmty, hgmback⟩ := ldRT_graph hF2m
    have hpj2 : ({ docOf kvs with
        relations := rs, modifications := ms, ids_resolved := true } :
        AnnDoc).project = .str pj := by
      show (lookupJ kvs "project").getD .null = .str pj
      rw [hpjL]
      rfl
    have hsd2 : ({ docOf kvs with
        relations := rs, modifications := ms, ids_resolved := true } :
        AnnDoc).sourcedb = .str sd := by
      show (lookupJ kvs "sourcedb").getD .null = .str sd
      rw [hsdL]
      rfl
    have hsi2 : ({ docOf kvs with
        relations := rs, modifications := ms, ids_resolved := true } :
        AnnDoc).sourceid = .str si := by
      show (lookupJ kvs "sourceid").getD .null = .str si
      rw [hsiL]
      rfl
    have hld : (docOf kvs).to_jsonld = .ok (Json.obj
        [("@context", Json.obj [("@base", Json.str (AnnDoc.base_url
            { docOf kvs with
              relations := rs, modifications := ms,
              ids_resolved := true })),
          ("text", (docOf kvs).text)]),
         ("@graph", Json.arr ((gd ++ gr) ++ gm))]) := by
      rw [show (docOf kvs).to_jsonld = (do
          let A3 ← (docOf kvs).resolve_ids
          let g ← A3.annotations.mapM Ann.to_jsonld
          return Json.obj [("@context", Json.obj
              [("@base", Json.str A3.base_url), ("text", A3.text)]),
            ("@graph", Json.arr g)]) from rfl]
      rw [hres, ebind_ok]
      rw [show ({ docOf kvs with
          relations := rs, modifications := ms, ids_resolved := true } :
          AnnDoc).annotations =
          (docOf kvs).denotations ++ rs ++ ms from rfl]
      rw [mapM_append_ok (mapM_append_ok hgd hgr) hgm, ebind_ok, epure]
    have hfd : filterByType "pa:Denotation" ((gd ++ gr) ++ gm) = .ok gd := by
      have h1 := filterByType_all hgdty
      have h2 := filterByType_none (fun x hx2 =>
        ⟨.str "pa:Relation", hgrty x hx2,
         @str_ne "pa:Relation" "pa:Denotation" (by decide)⟩)
      have h3 := filterByType_none (fun x hx2 =>
        ⟨.str "pa:Modification", hgmty x hx2,
         @str_ne "pa:Modification" "pa:Denotation" (by decide)⟩)
      have h4 := filterByType_append (filterByType_append h1 h2) h3
      simpa using h4
    have hfr : filterByType "pa:Relation" ((gd ++ gr) ++ gm) = .ok gr := by
      have h1 := filterByType_none (fun x hx2 =>
        ⟨.str "pa:Denotation", hgdty x hx2,
         @str_ne "pa:Denotation" "pa:Relation" (by decide)⟩)
      have h2 := filterByType_all hgrty
      have h3 := filterByType_none (fun x hx2 =>
        ⟨.str "pa:Modification", hgmty x hx2,
         @str_ne "pa:Modification" "pa:Relation" (by decide)⟩)
      have h4 := filterByType_append (filterByType_append h1 h2) h3
      simpa using h4
    have hfm : filterByType "pa:Modification" ((gd ++ gr) ++ gm) =
        .ok gm := by
      have h1 := filterByType_none (fun x hx2 =>
        ⟨.str "pa:Denotation", hgdty x hx2,
         @str_ne "pa:Denotation" "pa:Modification" (by decide)⟩)
      have h2 := filterByType_none (fun x hx2 =>
        ⟨.str "pa:Relation", hgrty x hx2,
         @str_ne "pa:Relation" "pa:Modification" (by decide)⟩)
      have h3 := filterByType_all hgmty
      have h4 := filterByType_append (filterByType_append h1 h2) h3
      simpa using h4
    rcases hdiv with ⟨hdvnull, htgt⟩ | ⟨n, hdvnum, htgt⟩
    · have hdv2 : ({ docOf kvs with
          relations := rs, modifications := ms, ids_resolved := true } :
          AnnDoc).divid = .null := hdvnull
      have hb := parse_base_url_null hpj2 hsd2 hsi2 hdv2 hp hs hx
      have hfrom := from_jsonld_obj ((docOf kvs).text) rfl hb hfd hfr hfm
        hgdback hgrback hgmback
      have hdoc : ({
          target := .str (target_uri sd si none),
          text := (docOf kvs).text,
          project := .str pj,
          sourcedb := .str sd,
          sourceid := .str si,
          divid := Json.null,
          denotations := (docOf kvs).denotations,
          relations := (docOf kvs).relations,
          modifications := (docOf kvs).modifications,
          namespaces := .arr [],
          ids_resolved := false } : AnnDoc) = docOf kvs := by
        unfold docOf
        rw [htgt, hpjL, hsdL, hsiL, hdvnull, hns]
        rfl
      rw [hdoc] at hfrom
      exact ⟨docOf kvs, _, docOf kvs, _, _, from_json_valid hvn, hld,
        hfrom, to_json_docOf hvn, to_json_docOf hvn, rfl⟩
    · have hdv2 : ({ docOf kvs with
          relations := rs, modifications := ms, ids_resolved := true } :
          AnnDoc).divid = .num n := hdvnum
      have hb := parse_base_url_num hpj2 hsd2 hsi2 hdv2 hp hs hx
      have hdvm : (do
          let k ← pyInt (String.mk (pyFormatD n))
          return Json.num k : Except PyErr Json) = .ok (Json.num n) := by
        rw [pyInt_roundtrip]
        rfl
      have hfrom := from_jsonld_obj ((docOf kvs).text) hdvm hb hfd hfr hfm
        hgdback hgrback hgmback
      have hdoc : ({
          target := .str (target_uri sd si (some (String.mk (pyFormatD n)))),
          text := (docOf kvs).text,
          project := .str pj,
          sourcedb := .str sd,
          sourceid := .str si,
          divid := Json.num n,
          denotations := (docOf kvs).denotations,
          relations := (docOf kvs).relations,
          modifications := (docOf kvs).modifications,
          namespaces := .arr [],
          ids_resolved := false } : AnnDoc) = docOf kvs := by
        unfold docOf
        rw [htgt, hpjL, hsdL, hsiL, hdvnum, hns]
        rfl
      rw [hdoc] at hfrom
      exact ⟨docOf kvs, _, docOf kvs, _, _, from_json_valid hvn, hld,
        hfrom, to_json_docOf hvn, to_json_docOf hvn, rfl⟩
  all_goals simp [validForLD, validNative] at h

/-- Witness for C2 at `exDoc`. -/
theorem c2_witness :
    ∃ A j A2 out out2,
      AnnDoc.from_json exDoc = .ok A ∧ A.to_jsonld = .ok j ∧
      AnnDoc.from_jsonld j = .ok A2 ∧
      A.to_json = .ok out ∧ A2.to_json = .ok out2 ∧
      canonDoc out2 = canonDoc out :=
  c2_jsonld_roundtrip exDoc (by decide)
